import Mathlib

/-!
# lif: temporal state engine

A shallow embedding of the day-boundary, streak, daily-reset, spec-parsing,
duration-display and reminder code of the `lif` dashboard (`gamification.go`,
`helpers.go`, `update.go`, `model.go`), and theorems about it.

## Modelling conventions

* A `time.Time` is the number of nanoseconds since Go's zero instant
  (0001-01-01T00:00:00 UTC), an unbounded integer; `IsZero` is equality with `0`.
  The monotonic clock reading and the range of `time.Time` are not modelled.
* The process runs in one time zone, `now.Location()`: a `Location` is the offset in use
  before its first transition and the table of its transitions (Unix second, offset from
  then on), and `lookup` finds the offset in use at an instant as the library does on a
  sorted table (the rule for instants after the table, and the cache, are not modelled).
  Every wall-clock reading (`Hour`, `Format`) uses the offset at the instant read, and
  `time.Date` and `AddDate` resolve a reading to an instant by the library's two lookups.
  `time.UTC` and `time.FixedZone off` are the zones without clock changes; `havana2024`,
  `helsinki2024` and `newYork2024` are the 2024 tables of three zones with them.
* A calendar date is represented by its ordinal: the number of days between
  0001-01-01 and that date. `t.Year(), t.Month(), t.Day()` together are
  `Time.CalendarDate loc t`, the label `t.Format("2006-01-02")` is that ordinal too (the
  layout is one-to-one on calendar dates and the code only compares labels for
  equality), and `time.Date(y, m, d, ...)` takes the ordinal of `y-m-d`.
* Every `time.Now()` of one operation is the single explicit argument `now`.
* Go `int` is 64 bits: `CurrentStreak++` wraps (`wrap64`); the fields of a record are
  integers, and a stored record holds values in the 64-bit range. A `time.Duration` is a
  64-bit count of nanoseconds: products of durations wrap, and `Round` and `Sub` saturate
  as the library does, since spec strings reach these bounds.
* Text is a list of characters; the library functions the code calls on it
  (`strings.HasSuffix`, `strings.TrimSuffix`, `strconv.Atoi`, `time.Parse` for the five
  clock layouts, `Duration.String`, the verb `%d`) are modelled from their Go sources.
* A history of the store is a sequence of operations, each at a time of its own:
  `ReminderStep` and `DailyStep` are one operation on the reminders and on the daily
  tasks, `ReminderReachable` and `DailyReachable` the stores that histories reach from
  newly created entries.
-/

set_option linter.dupNamespace false

namespace Lif

/-! ## 64-bit integers -/

/-- Least value of Go's `int` and of `time.Duration`. -/
def minInt64 : Int := -9223372036854775808

/-- Greatest value of Go's `int` and of `time.Duration` (`maxDuration`). -/
def maxInt64 : Int := 9223372036854775807

/-- The value a 64-bit signed register holds after an arithmetic result `x`. -/
def wrap64 (x : Int) : Int :=
  (x + 9223372036854775808) % 18446744073709551616 - 9223372036854775808

/-! ## The `time` package -/

/-- Instants: nanoseconds since 0001-01-01T00:00:00 UTC. -/
abbrev Time := Int

/-- Elapsed time in nanoseconds (`time.Duration`). -/
abbrev Duration := Int

/-- Calendar dates and their `"2006-01-02"` labels, as day ordinals. -/
abbrev DateLabel := Int

namespace time

def Nanosecond : Duration := 1
def Second : Duration := 1000000000
def Minute : Duration := 60 * Second
def Hour : Duration := 60 * Minute

end time

/-- A transition of a zone table (`zoneTrans`): from the Unix second `when` on, the zone
with `offset` seconds east of UTC is in use. -/
structure zoneTrans where
  when : Int
  offset : Int
  deriving DecidableEq, Repr

/-- A time zone (`time.Location`): the offset of the zone in use before the first
transition, and the transitions in increasing order of `when`. -/
structure Location where
  first : Int
  tx : List zoneTrans
  deriving DecidableEq, Repr

/-- The library's `alpha`, the beginning of time for a zone table. -/
def alpha : Int := -9223372036854775808

/-- The library's `omega`, the end of time for a zone table. -/
def omega : Int := 9223372036854775807

/-- The library's `unixToInternal`: seconds from 0001-01-01 to 1970-01-01. -/
def unixToInternal : Int := 62135596800

/-- The search of `lookup` along the table, the zone found so far given by its offset and
the start of its period: the zone of the last transition at or before `sec`. -/
def lookupFrom (sec : Int) : Int → Int → List zoneTrans → Int × Int × Int
  | offset, start, [] => (offset, start, omega)
  | offset, start, tr :: rest =>
    if sec < tr.when then (offset, start, tr.when) else lookupFrom sec tr.offset tr.when rest

/-- The library's `l.lookup(sec)`: the offset in use at the Unix second `sec`, and the
bounds `start ≤ sec < end` of the period in which that zone is in use. -/
def Location.lookup (l : Location) (sec : Int) : Int × Int × Int :=
  lookupFrom sec l.first alpha l.tx

namespace time

/-- The Go variable `time.UTC`. -/
def UTC : Location := { first := 0, tx := [] }

/-- The Go function `time.FixedZone(name, offset)`: the zone that always uses `offset`
seconds east of UTC. -/
def FixedZone (offset : Int) : Location := { first := offset, tx := [] }

end time

namespace Time

/-- The Go method `t.IsZero()`. -/
def IsZero (t : Time) : Bool := decide (t = 0)

/-- The Go method `t.Before(u)`. -/
def Before (t u : Time) : Bool := decide (t < u)

/-- The Go method `t.After(u)`. -/
def After (t u : Time) : Bool := decide (t > u)

/-- The Go method `t.Add(d)`. -/
def Add (t : Time) (d : Duration) : Time := t + d

/-- Seconds since 1970-01-01T00:00:00 UTC (`t.unixSec()`). -/
def unixSec (t : Time) : Int := t / time.Second - unixToInternal

/-- Wall-clock reading of `t` in the zone (`t.abs()`, with the nanoseconds): nanoseconds
since 0001-01-01T00:00 local, by the offset in use at `t`. -/
def wall (loc : Location) (t : Time) : Int := t + (loc.lookup t.unixSec).1 * time.Second

/-- The calendar date of `t` in the zone (`t.Year(), t.Month(), t.Day()`), as an ordinal. -/
def CalendarDate (loc : Location) (t : Time) : DateLabel := wall loc t / (24 * time.Hour)

/-- The Go method `t.Hour()`: hour of the day, 0 to 23. -/
def Hour (loc : Location) (t : Time) : Int := wall loc t % (24 * time.Hour) / time.Hour

/-- The Go method `t.Minute()`. -/
def Minute (loc : Location) (t : Time) : Int := wall loc t % time.Hour / time.Minute

/-- The Go method `t.Second()`. -/
def Second (loc : Location) (t : Time) : Int := wall loc t % time.Minute / time.Second

/-- The Go method `t.Nanosecond()`. -/
def Nanosecond (loc : Location) (t : Time) : Int := wall loc t % time.Second

/-- The Go function `time.Date(y, m, d, hour, min, sec, nsec, loc)`, the date
`y-m-d` given by its ordinal `day`: the reading is taken as if in UTC, and the offset the
zone has there, or the one it has at the instant so found when that instant is outside the
period of the first, is subtracted. -/
def Date (day : DateLabel) (hour min sec nsec : Int) (loc : Location) : Time :=
  let total := day * (24 * time.Hour) + hour * time.Hour + min * time.Minute
    + sec * time.Second + nsec
  let nsec := total % time.Second
  let unix := total / time.Second - unixToInternal
  -- Look for zone offset for expected time, so we can adjust to UTC.
  let found := loc.lookup unix
  let offset :=
    if found.1 != 0 then
      let utc := unix - found.1
      -- If utc is valid for the time zone we found, then we have the right offset.
      -- If not, we get the correct offset by looking up utc in the location.
      if decide (utc < found.2.1) || decide (utc ≥ found.2.2) then (loc.lookup utc).1
      else found.1
    else 0
  (unix - offset + unixToInternal) * time.Second + nsec

/-- The Go method `t.AddDate(0, 0, days)`: the same clock reading on the date
`days` days away, as the library computes it (`Date(year, month, day+days, hour,
min, sec, nsec, loc)`). -/
def AddDate (loc : Location) (t : Time) (days : Int) : Time :=
  Date (CalendarDate loc t + days) (Hour loc t) (Minute loc t) (Second loc t) (Nanosecond loc t) loc

/-- The Go call `t.Format("2006-01-02")`: the date label of `t`. -/
def Format (loc : Location) (t : Time) : DateLabel := CalendarDate loc t

end Time

/-- Cumulative days before each month of a common year (the library's table). -/
def daysBefore : List Int := [0, 31, 59, 90, 120, 151, 181, 212, 243, 273, 304, 334]

/-- Leap years of the proleptic Gregorian calendar. -/
def isLeap (year : Int) : Bool := year % 4 == 0 && (year % 100 != 0 || year % 400 == 0)

/-- Ordinal of the calendar date `year-month-day` (0 for 0001-01-01); used to
write concrete instants. -/
def civil (year month day : Int) : DateLabel :=
  365 * (year - 1) + (year - 1) / 4 - (year - 1) / 100 + (year - 1) / 400
    + daysBefore.getD (month - 1).toNat 0
    + (if isLeap year && decide (month ≥ 3) then 1 else 0)
    + (day - 1)

/-! ## Data model (`model.go`) -/

structure Daily where
  ID : Int
  Task : String
  Priority : String
  Category : String
  Deadline : String
  Status : String
  LastCompleted : Time
  CurrentStreak : Int
  BestStreak : Int
  deriving DecidableEq, Repr

structure RollingTodo where
  ID : Int
  Task : String
  Priority : String
  Category : String
  Deadline : String
  deriving DecidableEq, Repr

structure Reminder where
  ID : Int
  Reminder : String
  Note : String
  AlarmOrCountdown : String
  Status : String
  CreatedAt : Time
  TargetTime : Time
  IsCountdown : Bool
  Notified : Bool
  PausedRemaining : Duration
  deriving DecidableEq, Repr

structure ReferenceItem where
  ID : Int
  Lang : String
  Command : String
  Usage : String
  Example : String
  Meaning : String
  deriving DecidableEq, Repr

structure AppData where
  Dailies : List Daily
  RollingTodos : List RollingTodo
  Reminders : List Reminder
  Reference : List ReferenceItem
  deriving DecidableEq, Repr

/-- One call `sendNotification(title, message)` to the notifier. -/
structure Notification where
  title : String
  message : String
  deriving DecidableEq, Repr

/-! ## Day boundary and streaks (`gamification.go`) -/

/-- The day label under the 3AM cutoff: times before 3AM belong to the previous
calendar day. -/
def get3AMDay (loc : Location) (t : Time) : DateLabel :=
  let t := if Time.Hour loc t < 3 then Time.AddDate loc t (-1) else t
  Time.Format loc t

/-- Streak bookkeeping of a daily task that is being marked done at `now`. -/
def updateTaskStreak (loc : Location) (now : Time) (daily : Daily) : Daily :=
  let today := get3AMDay loc now
  if !daily.LastCompleted.IsZero && get3AMDay loc daily.LastCompleted == today then
    daily
  else
    let yesterdayTime := now.Add (-24 * time.Hour)
    let yesterday := get3AMDay loc yesterdayTime
    let daily :=
      if daily.LastCompleted.IsZero then
        { daily with CurrentStreak := 1 }
      else if get3AMDay loc daily.LastCompleted == yesterday then
        { daily with CurrentStreak := wrap64 (daily.CurrentStreak + 1) }
      else
        { daily with CurrentStreak := 1 }
    if daily.CurrentStreak > daily.BestStreak then
      { daily with BestStreak := daily.CurrentStreak }
    else
      daily

/-! ## Daily reset sweep (`helpers.go`) -/

/-- The most recent 03:00 local at or before `now`. -/
def getMostRecent3AM (loc : Location) (now : Time) : Time :=
  let today3AM := Time.Date (Time.CalendarDate loc now) 3 0 0 0 loc
  if now.Before today3AM then
    Time.AddDate loc today3AM (-1)
  else
    today3AM

/-- Body of the loop of `resetDailyTasks` for one task: the task after it, and
whether it set `resetOccurred`. -/
def resetDaily (loc : Location) (mostRecent3AM now : Time) (daily : Daily) : Daily × Bool :=
  let (daily, reset1) :=
    if daily.Status == "DONE" && daily.LastCompleted.Before mostRecent3AM then
      ({ daily with Status := "INCOMPLETE", LastCompleted := 0, CurrentStreak := 0 }, true)
    else
      (daily, false)
  if decide (daily.CurrentStreak > 0) && !daily.LastCompleted.IsZero then
    let lastCompletedDay := get3AMDay loc daily.LastCompleted
    let yesterdayTime := now.Add (-24 * time.Hour)
    let yesterday := get3AMDay loc yesterdayTime
    if lastCompletedDay != yesterday && lastCompletedDay != get3AMDay loc now then
      ({ daily with CurrentStreak := 0 }, true)
    else
      (daily, reset1)
  else
    (daily, reset1)

/-- The loop of `resetDailyTasks` over the tasks, `resetOccurred` threaded through. -/
def resetLoop (loc : Location) (mostRecent3AM now : Time) :
    List Daily → Bool → List Daily × Bool
  | [], resetOccurred => ([], resetOccurred)
  | daily :: rest, resetOccurred =>
    let (daily, reset) := resetDaily loc mostRecent3AM now daily
    let (rest, resetOccurred) := resetLoop loc mostRecent3AM now rest (resetOccurred || reset)
    (daily :: rest, resetOccurred)

/-- The sweep: the data after it and the returned `resetOccurred`. -/
def resetDailyTasks (loc : Location) (now : Time) (data : AppData) : AppData × Bool :=
  let mostRecent3AM := getMostRecent3AM loc now
  let (dailies, resetOccurred) := resetLoop loc mostRecent3AM now data.Dailies false
  ({ data with Dailies := dailies }, resetOccurred)

/-! ## Tick (`update.go`, the `tickMsg` branch of `Update`) -/

/-- Guard of the reminder loop of the tick. -/
def expiryDue (now : Time) (reminder : Reminder) : Bool :=
  !reminder.TargetTime.IsZero && !reminder.Notified && reminder.Status == "active"
    && now.After reminder.TargetTime

/-- The reminder loop of the tick: the reminders after it and the notifications
sent, in order. -/
def expiryLoop (now : Time) : List Reminder → List Reminder × List Notification
  | [] => ([], [])
  | reminder :: rest =>
    let (rest, sent) := expiryLoop now rest
    if expiryDue now reminder then
      ({ reminder with Notified := true, Status := "expired" } :: rest,
        { title := "Reminder", message := reminder.Reminder } :: sent)
    else
      (reminder :: rest, sent)

/-- The data part of `Update` on a `tickMsg`: daily reset, then reminder expiry. -/
def updateTick (loc : Location) (now : Time) (data : AppData) : AppData × List Notification :=
  let data := (resetDailyTasks loc now data).1
  let (reminders, sent) := expiryLoop now data.Reminders
  ({ data with Reminders := reminders }, sent)

/-! ## Rules of the specification, for comparison with the code -/

/-- Rule 1 of the sweep in the specification: the task is DONE and was last
completed before the most recent boundary. -/
def staleDone (loc : Location) (now : Time) (daily : Daily) : Prop :=
  daily.Status = "DONE" ∧ daily.LastCompleted < getMostRecent3AM loc now

/-- Rule 2 of the sweep in the specification: a positive streak whose last
completion is on neither yesterday's nor today's logical day. -/
def streakLapsed (loc : Location) (now : Time) (daily : Daily) : Prop :=
  daily.CurrentStreak > 0 ∧ daily.LastCompleted ≠ 0
    ∧ get3AMDay loc daily.LastCompleted ≠ get3AMDay loc (now.Add (-24 * time.Hour))
    ∧ get3AMDay loc daily.LastCompleted ≠ get3AMDay loc now

instance (loc : Location) (now : Time) (daily : Daily) : Decidable (staleDone loc now daily) := by
  unfold staleDone; infer_instance

instance (loc : Location) (now : Time) (daily : Daily) : Decidable (streakLapsed loc now daily) := by
  unfold streakLapsed; infer_instance


/-! ## Concrete inputs -/

/-- A task done on 2024-01-01 at 10:00 UTC with a streak of 3. -/
def doneYesterday : Daily :=
  { ID := 1, Task := "stretch", Priority := "MEDIUM", Category := "health", Deadline := "",
    Status := "DONE", LastCompleted := Time.Date (civil 2024 1 1) 10 0 0 0 time.UTC,
    CurrentStreak := 3, BestStreak := 3 }

/-- A store holding only `doneYesterday`. -/
def doneYesterdayData : AppData :=
  { Dailies := [doneYesterday], RollingTodos := [], Reminders := [], Reference := [] }

/-- A task that is not ticked but still carries a completion time of 2024-01-01 at
10:00 UTC and a streak of 3, as a stored file can hold it. -/
def staleStreak : Daily :=
  { ID := 2, Task := "read", Priority := "LOW", Category := "mind", Deadline := "",
    Status := "INCOMPLETE", LastCompleted := Time.Date (civil 2024 1 1) 10 0 0 0 time.UTC,
    CurrentStreak := 3, BestStreak := 5 }

/-- A store holding only `staleStreak`. -/
def staleStreakData : AppData :=
  { Dailies := [staleStreak], RollingTodos := [], Reminders := [], Reference := [] }

/-- A reminder armed for 2024-01-01 at 08:00 UTC. -/
def dueAtEight : Reminder :=
  { ID := 1, Reminder := "tea", Note := "", AlarmOrCountdown := "8:00AM", Status := "active",
    CreatedAt := Time.Date (civil 2024 1 1) 7 0 0 0 time.UTC,
    TargetTime := Time.Date (civil 2024 1 1) 8 0 0 0 time.UTC,
    IsCountdown := false, Notified := false, PausedRemaining := 0 }

/-- A store holding only `dueAtEight`. -/
def dueAtEightData : AppData :=
  { Dailies := [], RollingTodos := [], Reminders := [dueAtEight], Reference := [] }

/-! ## Completion toggle (`update.go`, `toggleCompletion`) and new tasks (`saveEdit`) -/

/-- The default branch of the switch of `toggleCompletion`: mark the task done at `now`. -/
def applyCompletion (loc : Location) (now : Time) (daily : Daily) : Daily :=
  let daily := updateTaskStreak loc now daily
  { daily with LastCompleted := now, Status := "DONE" }

/-- The `"DONE"` branch of the switch of `toggleCompletion`: un-complete the task. -/
def revertCompletion (daily : Daily) : Daily :=
  { daily with LastCompleted := 0, Status := "INCOMPLETE" }

/-- The list with the element at index `i` replaced by `f` of it (`items[i] = f(items[i])`
through a pointer to the element). -/
def modifyAt {α : Type} (f : α → α) : Nat → List α → List α
  | _, [] => []
  | 0, a :: rest => f a :: rest
  | i + 1, a :: rest => a :: modifyAt f i rest

/-- What `toggleCompletion` does to the task under the cursor. -/
def toggleDaily (loc : Location) (now : Time) (daily : Daily) : Daily :=
  if daily.Status == "DONE" then revertCompletion daily else applyCompletion loc now daily

/-- The data part of `toggleCompletion`, the active tab and the table cursor given, up to
the refresh of the table that ends it: `dailyRows` sorts the tasks of the store in place,
which changes their order only (`DailyStep.reorder`). -/
def toggleCompletion (loc : Location) (now : Time) (activeTab : Int) (cursor : Nat)
    (data : AppData) : AppData :=
  if activeTab != 2 || data.Dailies.length == 0 then
    data
  else if cursor ≥ data.Dailies.length then
    data
  else
    { data with Dailies := modifyAt (toggleDaily loc now) cursor data.Dailies }

/-- The task `saveEdit` appends for a new row of the Dailies tab; the four texts are the
input values after `normalizeText` and `normalizePriority`. -/
def newDaily (data : AppData) (task priority category deadline : String) : Daily :=
  { ID := data.Dailies.length + 1, Task := task, Priority := priority, Category := category,
    Deadline := deadline, Status := "INCOMPLETE", LastCompleted := 0,
    CurrentStreak := 0, BestStreak := 0 }

/-- The Dailies branch of `saveEdit` for a new row (`editingRow == -1`): the task is
appended; the refresh of the table that follows sorts the tasks in place, which changes
their order only (`DailyStep.reorder`). -/
def saveEditNewDaily (data : AppData) (task priority category deadline : String) : AppData :=
  { data with Dailies := data.Dailies ++ [newDaily data task priority category deadline] }

/-- The streak fields of a task are in the data model's range and ordered:
`0 ≤ BestStreak` and `CurrentStreak ≤ BestStreak`. -/
def streakBounded (daily : Daily) : Prop :=
  0 ≤ daily.BestStreak ∧ daily.CurrentStreak ≤ daily.BestStreak

instance (daily : Daily) : Decidable (streakBounded daily) := by
  unfold streakBounded; infer_instance


/-! ## Library functions on strings and 64-bit integers

Spec strings are lists of characters. The suffixes and digits the code looks for are
ASCII, so reading a string by characters or by bytes gives the same result. -/

/-- The Go function `strings.HasSuffix(s, suffix)`. -/
def HasSuffix (s suffix : List Char) : Bool := suffix.isSuffixOf s

/-- The Go function `strings.TrimSuffix(s, suffix)`. -/
def TrimSuffix (s suffix : List Char) : List Char :=
  if HasSuffix s suffix then s.take (s.length - suffix.length) else s

/-- The character of the decimal digit `d`. -/
def digitChar (d : Nat) : Char := Char.ofNat (48 + d)

/-- The value of a decimal digit character, if it is one. -/
def digitValue (c : Char) : Option Nat :=
  if 48 ≤ c.toNat ∧ c.toNat ≤ 57 then some (c.toNat - 48) else none

/-- Digits of `n`, most significant first, in front of `acc`. -/
def decimalLoop : Nat → Nat → List Char → List Char
  | 0, _, acc => acc
  | fuel + 1, n, acc =>
    if n < 10 then digitChar n :: acc
    else decimalLoop fuel (n / 10) (digitChar (n % 10) :: acc)

/-- Decimal notation of a natural number. -/
def natText (n : Nat) : List Char := decimalLoop (n + 1) n []

/-- Decimal notation of an integer (`strconv.Itoa`, the verb `%d`). -/
def Itoa (n : Int) : List Char :=
  if n < 0 then '-' :: natText n.natAbs else natText n.natAbs

/-- Value of a run of decimal digits read after the value `acc`; `none` when a
character is not a digit. -/
def readDigits (acc : Nat) : List Char → Option Nat
  | [] => some acc
  | c :: rest =>
    match digitValue c with
    | some d => readDigits (acc * 10 + d) rest
    | none => none

/-- The digits of `strconv.Atoi` after the sign: at least one decimal digit, the signed
value within the range of `int`; `none` for an error. -/
def atoiDigits (neg : Bool) (digits : List Char) : Option Int :=
  if digits.isEmpty then none
  else
    match readDigits 0 digits with
    | none => none
    | some v =>
      let n : Int := if neg then -(v : Int) else (v : Int)
      if minInt64 ≤ n ∧ n ≤ maxInt64 then some n else none

/-- The Go function `strconv.Atoi`: an optional sign, then the digits; `none` for an
error. -/
def Atoi (s : List Char) : Option Int :=
  match s with
  | '-' :: rest => atoiDigits true rest
  | '+' :: rest => atoiDigits false rest
  | _ => atoiDigits false s

/-! ## Countdown specs (`helpers.go`) -/

/-- The countdown parser: the target time and whether the spec was accepted. Each
product is a product of `time.Duration` values, hence 64-bit. -/
def parseCountdown (now : Time) (countdownStr : List Char) : Time × Bool :=
  -- Days format (1d, 5d, 20d)
  match (if HasSuffix countdownStr ['d'] then Atoi (TrimSuffix countdownStr ['d'])
      else none) with
  | some days => (now.Add (wrap64 (wrap64 (days * 24) * time.Hour)), true)
  | none =>
  -- Weeks format (1w, 2w)
  match (if HasSuffix countdownStr ['w'] then Atoi (TrimSuffix countdownStr ['w'])
      else none) with
  | some weeks => (now.Add (wrap64 (wrap64 (wrap64 (weeks * 7) * 24) * time.Hour)), true)
  | none =>
  -- Minutes format (1m, 30m, min)
  match (if HasSuffix countdownStr ['m'] || HasSuffix countdownStr ['m', 'i', 'n'] then
        Atoi (TrimSuffix (TrimSuffix countdownStr ['m', 'i', 'n']) ['m'])
      else none) with
  | some minutes => (now.Add (wrap64 (minutes * time.Minute)), true)
  | none =>
  -- Hours format (1h, 2h, hr)
  match (if HasSuffix countdownStr ['h'] || HasSuffix countdownStr ['h', 'r'] then
        Atoi (TrimSuffix (TrimSuffix countdownStr ['h', 'r']) ['h'])
      else none) with
  | some hours => (now.Add (wrap64 (hours * time.Hour)), true)
  | none =>
  -- Seconds format (1s, 30s, sec)
  match (if HasSuffix countdownStr ['s'] || HasSuffix countdownStr ['s', 'e', 'c'] then
        Atoi (TrimSuffix (TrimSuffix countdownStr ['s', 'e', 'c']) ['s'])
      else none) with
  | some seconds => (now.Add (wrap64 (seconds * time.Second)), true)
  | none => (0, false)

/-- The units of a countdown spec in the specification, with their durations. -/
def unitDuration (unit : List Char) : Option Duration :=
  if unit = ['d'] then some (24 * time.Hour)
  else if unit = ['w'] then some (7 * 24 * time.Hour)
  else if unit = ['m'] ∨ unit = ['m', 'i', 'n'] then some time.Minute
  else if unit = ['h'] ∨ unit = ['h', 'r'] then some time.Hour
  else if unit = ['s'] ∨ unit = ['s', 'e', 'c'] then some time.Second
  else none


/-- The suffixes `parseCountdown` accepts after the integer, with their durations: the
eight units, and the two-letter-doubled forms its nested `TrimSuffix` calls let through. -/
def acceptedSuffixes : List (List Char × Duration) :=
  [(['d'], 24 * time.Hour), (['w'], 7 * 24 * time.Hour),
   (['m'], time.Minute), (['m', 'i', 'n'], time.Minute), (['m', 'm', 'i', 'n'], time.Minute),
   (['h'], time.Hour), (['h', 'r'], time.Hour), (['h', 'h', 'r'], time.Hour),
   (['s'], time.Second), (['s', 'e', 'c'], time.Second), (['s', 's', 'e', 'c'], time.Second)]


/-! ## Clock layouts of `time.Parse`

Only the clock elements of the five layouts `parseAlarmTime` uses are modelled. A layout
is given by the chunks `nextStdChunk` cuts it into: each element with the literal text
before it. `Parse` returns the hour and the minute of the parsed time (its `Hour()` and
`Minute()`; the date of the parsed time, 1 January of year 0 in UTC, is not used). -/

/-- The layout elements of `time.Parse` that the alarm layouts contain. -/
inductive Std where
  /-- Element `15`: hour, 0 to 23. -/
  | stdHour
  /-- Element `3`: hour of the 12-hour clock. -/
  | stdHour12
  /-- Element `04`: minute, two digits. -/
  | stdZeroMinute
  /-- Element `PM`. -/
  | stdPM
  /-- Element `pm`. -/
  | stdpm
  deriving DecidableEq, Repr

/-- A layout: the chunks in order, each the literal prefix and the element after it. -/
abbrev Layout := List (List Char × Std)

/-- The layout `"3:04PM"`. -/
def layout12 : Layout := [([], .stdHour12), ([':'], .stdZeroMinute), ([], .stdPM)]

/-- The layout `"3:04 PM"`. -/
def layout12Space : Layout := [([], .stdHour12), ([':'], .stdZeroMinute), ([' '], .stdPM)]

/-- The layout `"3:04pm"`. -/
def layout12Lower : Layout := [([], .stdHour12), ([':'], .stdZeroMinute), ([], .stdpm)]

/-- The layout `"3:04 pm"`. -/
def layout12LowerSpace : Layout :=
  [([], .stdHour12), ([':'], .stdZeroMinute), ([' '], .stdpm)]

/-- The layout `"15:04"`. -/
def layout24 : Layout := [([], .stdHour), ([':'], .stdZeroMinute)]

/-- The library's `cutspace`: drop leading spaces. -/
def cutspace : List Char → List Char
  | ' ' :: rest => cutspace rest
  | s => s

/-- The library's `skip(value, prefix)`: remove the prefix from the value, a run of spaces
in the prefix standing for any run of spaces in the value (or for the end of the value);
`inSpaces` tells that the previous character of the prefix was a space. -/
def skipFrom : Bool → List Char → List Char → Option (List Char)
  | _, value, [] => some value
  | true, value, ' ' :: pre => skipFrom true value pre
  | false, value, ' ' :: pre =>
    match value with
    | [] => skipFrom true [] pre
    | c :: rest => if c ≠ ' ' then none else skipFrom true (cutspace (c :: rest)) pre
  | _, value, p :: pre =>
    match value with
    | [] => none
    | c :: rest => if c ≠ p then none else skipFrom false rest pre

/-- The library's `skip(value, prefix)`. -/
def skip (value pre : List Char) : Option (List Char) := skipFrom false value pre

/-- The library's `getnum(s, fixed)`: one or two leading digits, exactly two when `fixed`. -/
def getnum (s : List Char) (fixed : Bool) : Option (Nat × List Char) :=
  match s with
  | [] => none
  | c :: rest =>
    match digitValue c with
    | none => none
    | some d =>
      match rest with
      | [] => if fixed then none else some (d, [])
      | c' :: rest' =>
        match digitValue c' with
        | none => if fixed then none else some (d, c' :: rest')
        | some d' => some (d * 10 + d', rest')

/-- What `Parse` has read so far. -/
structure ParseState where
  hour : Nat
  min : Nat
  amSet : Bool
  pmSet : Bool
  deriving DecidableEq, Repr

/-- One element of the layout read from the value: the new state and the rest of the
value, or `none` for an error (a malformed or an out-of-range value). -/
def parseStd (std : Std) (st : ParseState) (value : List Char) :
    Option (ParseState × List Char) :=
  match std with
  | .stdHour =>
    match getnum value false with
    | none => none
    | some (hour, rest) => if 24 ≤ hour then none else some ({ st with hour := hour }, rest)
  | .stdHour12 =>
    match getnum value false with
    | none => none
    | some (hour, rest) => if 12 < hour then none else some ({ st with hour := hour }, rest)
  | .stdZeroMinute =>
    match getnum value true with
    | none => none
    | some (min, rest) => if 60 ≤ min then none else some ({ st with min := min }, rest)
  | .stdPM =>
    match value with
    | 'P' :: 'M' :: rest => some ({ st with pmSet := true }, rest)
    | 'A' :: 'M' :: rest => some ({ st with amSet := true }, rest)
    | _ => none
  | .stdpm =>
    match value with
    | 'p' :: 'm' :: rest => some ({ st with pmSet := true }, rest)
    | 'a' :: 'm' :: rest => some ({ st with amSet := true }, rest)
    | _ => none

/-- The loop of `Parse` over the chunks of the layout; at the end of the layout any text
left in the value is an error. -/
def parseChunks : Layout → ParseState → List Char → Option ParseState
  | [], st, value => if value.isEmpty then some st else none
  | (pre, std) :: layout, st, value =>
    match skip value pre with
    | none => none
    | some value =>
      match parseStd std st value with
      | none => none
      | some (st, value) => parseChunks layout st value

/-- The Go function `time.Parse(layout, value)` for a clock layout: the hour and minute of
the parsed time, or `none` for an error. -/
def Parse (layout : Layout) (value : List Char) : Option (Int × Int) :=
  match parseChunks layout { hour := 0, min := 0, amSet := false, pmSet := false } value with
  | none => none
  | some st =>
    let hour :=
      if st.pmSet && decide (st.hour < 12) then st.hour + 12
      else if st.amSet && decide (st.hour = 12) then 0
      else st.hour
    some ((hour : Int), (st.min : Int))

/-! ## Alarm specs (`helpers.go`) -/

/-- The body shared by the two successful paths of `parseAlarmTime`: the clock time on the
date of `now`, moved 24 hours on when it is before `now`. -/
def alarmOn (loc : Location) (now : Time) (t : Int × Int) : Time × Bool :=
  let alarmTime := Time.Date (Time.CalendarDate loc now) t.1 t.2 0 0 loc
  if alarmTime.Before now then
    (alarmTime.Add (24 * time.Hour), true)
  else
    (alarmTime, true)

/-- The list `formats12` of `parseAlarmTime`. -/
def formats12 : List Layout := [layout12, layout12Space, layout12Lower, layout12LowerSpace]

/-- The loop of `parseAlarmTime` over the 12-hour formats: the result of the first format
that parses, if any. -/
def parseAlarmLoop (loc : Location) (now : Time) (alarmStr : List Char) :
    List Layout → Option (Time × Bool)
  | [] => none
  | format :: rest =>
    match Parse format alarmStr with
    | some t => some (alarmOn loc now t)
    | none => parseAlarmLoop loc now alarmStr rest

/-- The alarm parser: the target time and whether the spec was accepted. -/
def parseAlarmTime (loc : Location) (now : Time) (alarmStr : List Char) : Time × Bool :=
  -- Try 12-hour format first (1:50PM, 1:50 PM, 1:50pm, etc.)
  match parseAlarmLoop loc now alarmStr formats12 with
  | some result => result
  | none =>
    -- Try 24-hour format (15:04)
    match Parse layout24 alarmStr with
    | some t => alarmOn loc now t
    | none => (0, false)

namespace time

def Microsecond : Duration := 1000 * Nanosecond
def Millisecond : Duration := 1000 * Microsecond

end time

/-- The library's `lessThanHalf(x, y)`: `x + x < y` in unsigned 64-bit arithmetic. -/
def lessThanHalf (x y : Duration) : Bool :=
  decide ((x % 18446744073709551616 + x % 18446744073709551616) % 18446744073709551616
    < y % 18446744073709551616)

/-- The Go method `d.Round(m)`: the nearest multiple of `m`, halfway values away from
zero; the maximum (minimum) duration when the result does not fit in 64 bits. -/
def Duration.Round (d m : Duration) : Duration :=
  if m ≤ 0 then d
  else
    let r := Int.tmod d m
    if d < 0 then
      let r := -r
      if lessThanHalf r m then wrap64 (d + r)
      else
        let d1 := wrap64 (d - m + r)
        if d1 < d then d1 else minInt64
    else if lessThanHalf r m then wrap64 (d - r)
    else
      let d1 := wrap64 (d + m - r)
      if d1 > d then d1 else maxInt64

/-- The Go method `d.Truncate(m)`: `d` rounded toward zero to a multiple of `m`. -/
def Duration.Truncate (d m : Duration) : Duration :=
  if m ≤ 0 then d else d - Int.tmod d m

/-- The library's `fmtFrac(buf, v, prec)`: the fraction of `v / 10^prec` in front of `acc`,
without trailing zeros and without the point when the fraction is zero, and the value
`v / 10^prec`; `print` tells that a non-zero digit has been met. -/
def fmtFrac : Nat → Nat → Bool → List Char → List Char × Nat
  | 0, v, print, acc => (if print then '.' :: acc else acc, v)
  | prec + 1, v, print, acc =>
    let digit := v % 10
    let print := print || decide (digit ≠ 0)
    fmtFrac prec (v / 10) print (if print then digitChar digit :: acc else acc)

/-- The library's `fmtInt(buf, v)`: the decimal notation of `v`. -/
def fmtInt (v : Nat) : List Char := natText v

/-- The Go method `d.String()`: the form "72h3m0.5s", leading zero units omitted, smaller
units for a duration below one second, "0s" for zero. -/
def Duration.String (d : Duration) : List Char :=
  let u : Nat := d.natAbs
  let neg := decide (d < 0)
  let body :=
    if u < 1000000000 then
      -- Special case: if duration is smaller than a second, use smaller units, like 1.2ms
      if u = 0 then ['0', 's']
      else if u < 1000 then
        let (frac, u) := fmtFrac 0 u false ['n', 's']
        fmtInt u ++ frac
      else if u < 1000000 then
        let (frac, u) := fmtFrac 3 u false ['µ', 's']
        fmtInt u ++ frac
      else
        let (frac, u) := fmtFrac 6 u false ['m', 's']
        fmtInt u ++ frac
    else
      let (frac, u) := fmtFrac 9 u false ['s']
      -- u is now integer seconds
      let w := fmtInt (u % 60) ++ frac
      let u := u / 60
      -- u is now integer minutes
      if u > 0 then
        let w := fmtInt (u % 60) ++ 'm' :: w
        let u := u / 60
        -- u is now integer hours
        if u > 0 then fmtInt u ++ 'h' :: w else w
      else w
  if neg then '-' :: body else body

/-- The display of a remaining time. -/
def formatDuration (d : Duration) : String :=
  -- If over 8 hours, round to nearest hour
  if d > 8 * time.Hour then
    let hours := d.Round time.Hour
    if hours ≥ 24 * time.Hour then
      let days := Int.tdiv hours (24 * time.Hour)
      let remaining := Int.tmod hours (24 * time.Hour)
      if remaining = 0 then
        if days = 1 then "1 day"
        else String.mk (Itoa days ++ " days".toList)
      else
        let hours := Int.tdiv remaining time.Hour
        if days = 1 then String.mk ("1 day ".toList ++ Itoa hours ++ ['h'])
        else String.mk (Itoa days ++ "d ".toList ++ Itoa hours ++ ['h'])
    else
      let hours := Int.tdiv (d.Round time.Hour) time.Hour
      if hours = 1 then "1 hour"
      else String.mk (Itoa hours ++ " hours".toList)
  else
    -- For under 8 hours, show precise time
    String.mk (d.Truncate time.Second).String

/-- The whole hour nearest to a duration, half hours rounding up. -/
def nearestHour (d : Duration) : Int := (d + 30 * time.Minute) / time.Hour

/-- The display the specification gives a whole number of hours `H`: whole days and the
remaining hours from 24 hours on, hours only below. -/
def formatHours (H : Int) : String :=
  if H ≥ 24 then
    if H % 24 = 0 then
      if H / 24 = 1 then "1 day"
      else String.mk (Itoa (H / 24) ++ " days".toList)
    else
      if H / 24 = 1 then String.mk ("1 day ".toList ++ Itoa (H % 24) ++ ['h'])
      else String.mk (Itoa (H / 24) ++ "d ".toList ++ Itoa (H % 24) ++ ['h'])
  else String.mk (Itoa H ++ " hours".toList)


/-- The compact clock form of `u` seconds: hours, minutes and seconds with the leading
zero units left out ("1h0m0s", "1m30s", "0s"). -/
def clockBody (u : Nat) : List Char :=
  if u / 3600 > 0 then
    natText (u / 3600) ++ 'h' :: (natText (u / 60 % 60) ++ 'm' :: (natText (u % 60) ++ ['s']))
  else if u / 60 > 0 then
    natText (u / 60 % 60) ++ 'm' :: (natText (u % 60) ++ ['s'])
  else natText (u % 60) ++ ['s']

/-- The compact clock form of a whole number of seconds, a minus sign in front of a
negative value. -/
def clockString (secs : Int) : String :=
  String.mk (if secs < 0 then '-' :: clockBody secs.natAbs else clockBody secs.natAbs)

/-- Reading a clock form back (for the proofs): the seconds it stands for, `total` so far
and `acc` the number being read. -/
def clockValue : Nat → Nat → List Char → Nat
  | total, _, [] => total
  | total, acc, c :: rest =>
    match digitValue c with
    | some d => clockValue total (acc * 10 + d) rest
    | none =>
      if c = 'h' then clockValue (total + acc * 3600) 0 rest
      else if c = 'm' then clockValue (total + acc * 60) 0 rest
      else if c = 's' then clockValue (total + acc) 0 rest
      else clockValue total acc rest


/-! ## Reminders: create, edit and the status actions (`update.go`) -/

/-- The Go method `t.Sub(u)`: the difference, the maximum (minimum) duration when it does
not fit in 64 bits. -/
def Time.Sub (t u : Time) : Duration :=
  if t - u > maxInt64 then maxInt64 else if t - u < minInt64 then minInt64 else t - u

/-- The Go function `time.Until(t)`. -/
def time.Until (now t : Time) : Duration := t.Sub now

/-- The reminder `saveEdit` appends for a new row of the Reminders tab (`editingRow == -1`);
`reminderText` and `noteText` are the first two inputs after `normalizeText`, `spec` the
third input as typed. A field the code does not set has its zero value. -/
def newReminder (loc : Location) (now : Time) (data : AppData) (reminderText noteText spec : String) :
    Reminder :=
  let newReminder : Reminder :=
    { ID := data.Reminders.length + 1, Reminder := reminderText, Note := noteText,
      AlarmOrCountdown := spec, Status := "", CreatedAt := now, TargetTime := 0,
      IsCountdown := false, Notified := false, PausedRemaining := 0 }
  -- Parse countdown or alarm
  match parseCountdown now spec.toList with
  | (targetTime, true) =>
    { newReminder with TargetTime := targetTime, IsCountdown := true, Status := "active" }
  | (_, false) =>
    match parseAlarmTime loc now spec.toList with
    | (targetTime, true) =>
      { newReminder with TargetTime := targetTime, IsCountdown := false, Status := "active" }
    | (_, false) => newReminder

/-- What `saveEdit` does to an existing row of the Reminders tab. -/
def editReminder (loc : Location) (now : Time) (reminder : Reminder)
    (reminderText noteText spec : String) : Reminder :=
  let reminder :=
    { reminder with Reminder := reminderText, Note := noteText, AlarmOrCountdown := spec }
  -- Re-parse countdown or alarm when editing
  match parseCountdown now spec.toList with
  | (targetTime, true) =>
    { reminder with
      TargetTime := targetTime, IsCountdown := true, Notified := false, Status := "active" }
  | (_, false) =>
    match parseAlarmTime loc now spec.toList with
    | (targetTime, true) =>
      { reminder with
        TargetTime := targetTime, IsCountdown := false, Notified := false, Status := "active" }
    | (_, false) => reminder

/-- The Reminders branch of `saveEdit`: a new row for `editingRow == -1`, the row
`editingRow` edited otherwise (for an index outside the list, where indexing the slice
fails in the Go code, the data is returned as it is). -/
def saveEditReminder (loc : Location) (now : Time) (editingRow : Int)
    (reminderText noteText spec : String) (data : AppData) : AppData :=
  if editingRow = -1 then
    { data with
      Reminders := data.Reminders ++ [newReminder loc now data reminderText noteText spec] }
  else if 0 ≤ editingRow ∧ editingRow < data.Reminders.length then
    { data with
      Reminders :=
        modifyAt (fun r => editReminder loc now r reminderText noteText spec) editingRow.toNat
          data.Reminders }
  else data

/-- The re-parse shared by the start and reset actions: the target and the kind of the
spec when a parser accepts it. -/
def reparse (loc : Location) (now : Time) (reminder : Reminder) : Reminder :=
  match parseCountdown now reminder.AlarmOrCountdown.toList with
  | (targetTime, true) => { reminder with TargetTime := targetTime, IsCountdown := true }
  | (_, false) =>
    match parseAlarmTime loc now reminder.AlarmOrCountdown.toList with
    | (targetTime, true) => { reminder with TargetTime := targetTime, IsCountdown := false }
    | (_, false) => reminder

/-- What `toggleReminderStatus(action)` does to the reminder under the cursor. -/
def toggleReminder (loc : Location) (now : Time) (action : String) (reminder : Reminder) :
    Reminder :=
  if action = "start" then
    if reminder.Status = "paused" then
      -- Resume from paused state
      let reminder :=
        if reminder.PausedRemaining > 0 then
          { reminder with
            TargetTime := now.Add reminder.PausedRemaining, PausedRemaining := 0 }
        else reminder
      { reminder with Status := "active", Notified := false }
    else if reminder.Status = "inactive" then
      -- Re-parse the alarm/countdown
      reparse loc now { reminder with Status := "active", Notified := false }
    else reminder
  else if action = "pause" then
    if reminder.Status = "active" then
      -- Store remaining time when pausing
      let reminder :=
        if !reminder.TargetTime.IsZero then
          let remaining := time.Until now reminder.TargetTime
          { reminder with PausedRemaining := if remaining < 0 then 0 else remaining }
        else reminder
      { reminder with Status := "paused" }
    else reminder
  else if action = "reset" then
    -- Re-parse and reset the target time
    reparse loc now { reminder with Status := "active", Notified := false, PausedRemaining := 0 }
  else reminder

/-- The data part of `toggleReminderStatus`, the active tab and the table cursor given. -/
def toggleReminderStatus (loc : Location) (now : Time) (activeTab : Int) (cursor : Nat)
    (action : String) (data : AppData) : AppData :=
  if activeTab != 4 || data.Reminders.length == 0 then
    data
  else if cursor ≥ data.Reminders.length then
    data
  else
    { data with Reminders := modifyAt (toggleReminder loc now action) cursor data.Reminders }

/-- The result of parsing a spec as the specification describes it: `parseCountdown` is
tried first, then `parseAlarmTime`; the target, and whether the spec is a countdown. -/
def parseSpec (loc : Location) (now : Time) (spec : String) : Option (Time × Bool) :=
  if (parseCountdown now spec.toList).2 then some ((parseCountdown now spec.toList).1, true)
  else if (parseAlarmTime loc now spec.toList).2 then
    some ((parseAlarmTime loc now spec.toList).1, false)
  else none

/-- An expired reminder holding the spec "30m", as a stored file can hold it. -/
def expiredTea : Reminder :=
  { ID := 1, Reminder := "tea", Note := "", AlarmOrCountdown := "30m", Status := "expired",
    CreatedAt := Time.Date (civil 2024 1 1) 7 0 0 0 time.UTC,
    TargetTime := Time.Date (civil 2024 1 1) 7 30 0 0 time.UTC,
    IsCountdown := true, Notified := true, PausedRemaining := 0 }

/-- The store with no entries. -/
def emptyData : AppData :=
  { Dailies := [], RollingTodos := [], Reminders := [], Reference := [] }


/-! ## Concrete reminders -/

/-- A reminder holding a spec that no parser accepts, as a stored file can hold it. -/
def unparsedCall : Reminder :=
  { ID := 1, Reminder := "call", Note := "", AlarmOrCountdown := "garbage", Status := "paused",
    CreatedAt := Time.Date (civil 2024 1 1) 7 0 0 0 time.UTC, TargetTime := 0,
    IsCountdown := false, Notified := false, PausedRemaining := 0 }

/-- A reminder paused at its target time, 07:30: nothing was left to bank. -/
def pausedAtTarget : Reminder :=
  { ID := 1, Reminder := "tea", Note := "", AlarmOrCountdown := "30m", Status := "paused",
    CreatedAt := Time.Date (civil 2024 1 1) 7 0 0 0 time.UTC,
    TargetTime := Time.Date (civil 2024 1 1) 7 30 0 0 time.UTC,
    IsCountdown := true, Notified := false, PausedRemaining := 0 }

/-- An active reminder whose target, 2400-01-01T00:00 UTC, is more than 292 years after
2024. -/
def farTarget : Reminder :=
  { ID := 1, Reminder := "capsule", Note := "", AlarmOrCountdown := "0:00", Status := "active",
    CreatedAt := Time.Date (civil 2024 1 1) 7 0 0 0 time.UTC,
    TargetTime := Time.Date (civil 2400 1 1) 0 0 0 0 time.UTC,
    IsCountdown := false, Notified := false, PausedRemaining := 0 }

/-- An active countdown with ten minutes left at 08:00. -/
def tenMinutesLeft : Reminder :=
  { ID := 1, Reminder := "tea", Note := "", AlarmOrCountdown := "30m", Status := "active",
    CreatedAt := Time.Date (civil 2024 1 1) 7 40 0 0 time.UTC,
    TargetTime := Time.Date (civil 2024 1 1) 8 10 0 0 time.UTC,
    IsCountdown := true, Notified := false, PausedRemaining := 0 }


/-! ## Histories of the reminders -/

/-- One operation of the program on the reminders of the store: `saveEdit` on the Reminders
tab (a new row, or an existing row edited), `toggleReminderStatus` with any action, or a
tick. -/
inductive ReminderStep (loc : Location) : AppData → AppData → Prop
  | saveEdit (now : Time) (editingRow : Int) (reminderText noteText spec : String)
      (data : AppData) :
      ReminderStep loc data (saveEditReminder loc now editingRow reminderText noteText spec data)
  | toggle (now : Time) (activeTab : Int) (cursor : Nat) (action : String) (data : AppData) :
      ReminderStep loc data (toggleReminderStatus loc now activeTab cursor action data)
  | tick (now : Time) (data : AppData) : ReminderStep loc data (updateTick loc now data).1

/-- The stores the program reaches from a store in which every reminder is as `saveEdit`
creates it. -/
inductive ReminderReachable (loc : Location) : AppData → Prop
  | init (data : AppData)
      (h : ∀ r ∈ data.Reminders, ∃ (now : Time) (data0 : AppData)
        (reminderText noteText spec : String),
        r = newReminder loc now data0 reminderText noteText spec) :
      ReminderReachable loc data
  | step (data data1 : AppData) (h : ReminderReachable loc data)
      (hstep : ReminderStep loc data data1) : ReminderReachable loc data1

/-- The body of the reminder loop of the tick on one reminder. -/
def expire (now : Time) (reminder : Reminder) : Reminder :=
  if expiryDue now reminder then { reminder with Notified := true, Status := "expired" }
  else reminder

/-! ## Histories of the daily tasks -/

/-- What `saveEdit` does to an existing row of the Dailies tab. -/
def editDaily (daily : Daily) (task priority category deadline : String) : Daily :=
  { daily with Task := task, Priority := priority, Category := category, Deadline := deadline }

/-- The Dailies branch of `saveEdit`: a new row for `editingRow == -1`, the row `editingRow`
edited otherwise (for an index outside the list, where indexing the slice fails in the Go
code, the data is returned as it is). -/
def saveEditDaily (editingRow : Int) (task priority category deadline : String)
    (data : AppData) : AppData :=
  if editingRow = -1 then
    saveEditNewDaily data task priority category deadline
  else if 0 ≤ editingRow ∧ editingRow < data.Dailies.length then
    { data with
      Dailies :=
        modifyAt (fun d => editDaily d task priority category deadline) editingRow.toNat
          data.Dailies }
  else data

/-- One operation of the program on the daily tasks of the store: `saveEdit` on the Dailies
tab (a new row, or an existing row edited), `toggleCompletion`, the sweep
`resetDailyTasks`, or the refresh of the table (`dailyRows`), whose `sortDailies` sorts the
tasks of the store in place with the unstable `sort.Slice`: some permutation of them. -/
inductive DailyStep (loc : Location) : AppData → AppData → Prop
  | saveEdit (editingRow : Int) (task priority category deadline : String) (data : AppData) :
      DailyStep loc data (saveEditDaily editingRow task priority category deadline data)
  | toggle (now : Time) (activeTab : Int) (cursor : Nat) (data : AppData) :
      DailyStep loc data (toggleCompletion loc now activeTab cursor data)
  | sweep (now : Time) (data : AppData) : DailyStep loc data (resetDailyTasks loc now data).1
  | reorder (data : AppData) (dailies : List Daily) (h : dailies.Perm data.Dailies) :
      DailyStep loc data { data with Dailies := dailies }

/-- A task as `saveEdit` creates it: INCOMPLETE, never completed, both streaks zero. -/
def newlyCreated (daily : Daily) : Prop :=
  daily.Status = "INCOMPLETE" ∧ daily.LastCompleted = 0 ∧ daily.CurrentStreak = 0
    ∧ daily.BestStreak = 0

instance (daily : Daily) : Decidable (newlyCreated daily) := by
  unfold newlyCreated; infer_instance

/-- The stores the program reaches from a store in which every task is newly created. -/
inductive DailyReachable (loc : Location) : AppData → Prop
  | init (data : AppData) (h : ∀ d ∈ data.Dailies, newlyCreated d) : DailyReachable loc data
  | step (data data1 : AppData) (h : DailyReachable loc data)
      (hstep : DailyStep loc data data1) : DailyReachable loc data1

/-- A task that is not DONE has a zero `LastCompleted`, and neither streak exceeds 1. -/
def streakAtMostOne (daily : Daily) : Prop :=
  (daily.Status ≠ "DONE" → daily.LastCompleted = 0) ∧ daily.CurrentStreak ≤ 1
    ∧ daily.BestStreak ≤ 1

instance (daily : Daily) : Decidable (streakAtMostOne daily) := by
  unfold streakAtMostOne; infer_instance

/-- A history of one task: created, completed on 2024-01-01 at 08:00 UTC, swept on
2024-01-02 at 08:00, and completed again right after the sweep. -/
def twoDayHistory : AppData :=
  toggleCompletion time.UTC (Time.Date (civil 2024 1 2) 8 0 0 0 time.UTC) 2 0
    (resetDailyTasks time.UTC (Time.Date (civil 2024 1 2) 8 0 0 0 time.UTC)
      (toggleCompletion time.UTC (Time.Date (civil 2024 1 1) 8 0 0 0 time.UTC) 2 0
        (saveEditDaily (-1) "run" "HIGH" "health" "" emptyData))).1


/-! ## Arithmetic of the time model -/

theorem time.Second_val : time.Second = 1000000000 := rfl

theorem time.Minute_val : time.Minute = 60000000000 := rfl

theorem time.Hour_val : time.Hour = 3600000000000 := rfl

theorem lookup_FixedZone (off sec : Int) :
    (time.FixedZone off).lookup sec = (off, alpha, omega) := rfl

/-- The wall clock of a zone without clock changes. -/
theorem Time.wall_FixedZone (off : Int) (t : Time) :
    Time.wall (time.FixedZone off) t = t + off * time.Second := rfl

/-- In a zone without clock changes `time.Date` is the reading less the offset. -/
theorem Time.Date_FixedZone (day : DateLabel) (hour min sec nsec off : Int) :
    Time.Date day hour min sec nsec (time.FixedZone off)
      = day * (24 * time.Hour) + hour * time.Hour + min * time.Minute + sec * time.Second
          + nsec - off * time.Second := by
  simp only [Time.Date, lookup_FixedZone, time.Hour_val, time.Minute_val, time.Second_val,
    unixToInternal, bne_iff_ne, ne_eq, ite_not]
  unfold DateLabel Time at *
  split_ifs <;> omega

/-- In a fixed-offset zone `AddDate(0, 0, days)` moves the instant by `days` times 24 hours. -/
theorem Time.AddDate_eq (off : Int) (t : Time) (days : Int) :
    Time.AddDate (time.FixedZone off) t days = t + days * (24 * time.Hour) := by
  simp only [Time.AddDate, Time.Date_FixedZone, Time.CalendarDate, Time.Hour, Time.Minute,
    Time.Second, Time.Nanosecond, Time.wall_FixedZone, time.Hour_val, time.Minute_val,
    time.Second_val]
  unfold Time at *
  omega

/-- In a fixed-offset zone the 3AM day of `t` is the calendar date of the wall clock three
hours earlier. -/
theorem get3AMDay_eq (off : Int) (t : Time) :
    get3AMDay (time.FixedZone off) t
      = (t + off * time.Second - 3 * time.Hour) / (24 * time.Hour) := by
  simp only [get3AMDay, Time.AddDate_eq, Time.Format]
  simp only [Time.CalendarDate, Time.Hour, Time.wall_FixedZone, time.Hour_val, time.Minute_val,
    time.Second_val]
  unfold DateLabel Time at *
  split <;> omega

/-- Closed form of the most recent 03:00 in a fixed-offset zone. -/
theorem getMostRecent3AM_eq (off : Int) (now : Time) :
    getMostRecent3AM (time.FixedZone off) now
      = (now + off * time.Second - 3 * time.Hour) / (24 * time.Hour) * (24 * time.Hour)
          + 3 * time.Hour - off * time.Second := by
  simp only [getMostRecent3AM, Time.AddDate_eq, Time.Before]
  simp only [Time.Date_FixedZone, Time.CalendarDate, Time.wall_FixedZone, time.Hour_val,
    time.Minute_val, time.Second_val]
  split
  · rename_i h
    simp only [decide_eq_true_eq] at h
    unfold DateLabel Time at *
    omega
  · rename_i h
    simp only [decide_eq_true_eq] at h
    unfold DateLabel Time at *
    omega

theorem wrap64_of_range (x : Int) (h : minInt64 ≤ x ∧ x ≤ maxInt64) : wrap64 x = x := by
  unfold wrap64
  unfold minInt64 maxInt64 at h
  omega

theorem wrap64_range (x : Int) : minInt64 ≤ wrap64 x ∧ wrap64 x ≤ maxInt64 := by
  unfold wrap64 minInt64 maxInt64
  omega

/-- Wrapping an intermediate product does not change the wrapped result. -/
theorem map_eq_self_iff {α : Type} (f : α → α) (l : List α) :
    l.map f = l ↔ ∀ a ∈ l, f a = a := by
  induction l with
  | nil => simp
  | cons a l ih => simp [ih]

/-! ## Day boundary -/

theorem updateTaskStreak_CurrentStreak (loc : Location) (now : Time) (daily : Daily) :
    (updateTaskStreak loc now daily).CurrentStreak
        = (if daily.LastCompleted ≠ 0
              ∧ get3AMDay loc daily.LastCompleted = get3AMDay loc now then
            daily.CurrentStreak
          else if daily.LastCompleted ≠ 0
              ∧ get3AMDay loc daily.LastCompleted
                  = get3AMDay loc (now.Add (-24 * time.Hour)) then
            wrap64 (daily.CurrentStreak + 1)
          else 1) := by
  simp only [updateTaskStreak, Time.IsZero, Time.Add, Bool.and_eq_true, Bool.not_eq_true',
    decide_eq_false_iff_not, beq_iff_eq, decide_eq_true_eq, ne_eq]
  split_ifs <;> simp_all

/-- C3 as stated fails: a task with the largest 64-bit streak, last completed on
2024-01-01 at 10:00 UTC, is completed at 2024-01-02T10:00; `CurrentStreak++` wraps around
and the streak is the smallest 64-bit integer, not the old value plus one. -/
theorem updateTaskStreak_wraps_counterexample :
    get3AMDay time.UTC (Time.Date (civil 2024 1 1) 10 0 0 0 time.UTC)
        = get3AMDay time.UTC ((Time.Date (civil 2024 1 2) 10 0 0 0 time.UTC).Add (-24 * time.Hour))
    ∧ (updateTaskStreak time.UTC (Time.Date (civil 2024 1 2) 10 0 0 0 time.UTC)
          { doneYesterday with CurrentStreak := 9223372036854775807 }).CurrentStreak
        = -9223372036854775808
    ∧ (updateTaskStreak time.UTC (Time.Date (civil 2024 1 2) 10 0 0 0 time.UTC)
          { doneYesterday with CurrentStreak := 9223372036854775807 }).CurrentStreak
        ≠ 9223372036854775807 + 1 := by
  decide

/-- C3, amended: `updateTaskStreak` leaves the task unchanged when it was already completed
on the logical day of `now`; otherwise the streak becomes the old value plus one in 64-bit
arithmetic (the old value plus one below the largest 64-bit integer, the smallest 64-bit
integer at it) when the last completion was on the logical day of `now - 24h`, and 1 in
every other case (never completed, or last completed on another day). A streak of 1 from
2024-01-01T10:00 completed at 2024-01-02T10:00 gives 2, completed at 2024-01-03T10:00
gives 1. -/
theorem updateTaskStreak_streak (loc : Location) (now : Time) (daily : Daily) :
    (updateTaskStreak loc now daily).CurrentStreak
        = (if daily.LastCompleted ≠ 0
              ∧ get3AMDay loc daily.LastCompleted = get3AMDay loc now then
            daily.CurrentStreak
          else if daily.LastCompleted ≠ 0
              ∧ get3AMDay loc daily.LastCompleted
                  = get3AMDay loc (now.Add (-24 * time.Hour)) then
            wrap64 (daily.CurrentStreak + 1)
          else 1)
    ∧ (minInt64 ≤ daily.CurrentStreak → daily.CurrentStreak < maxInt64 →
        wrap64 (daily.CurrentStreak + 1) = daily.CurrentStreak + 1)
    ∧ wrap64 (maxInt64 + 1) = minInt64
    ∧ (daily.LastCompleted ≠ 0
          ∧ get3AMDay loc daily.LastCompleted = get3AMDay loc now →
        updateTaskStreak loc now daily = daily)
    ∧ (updateTaskStreak time.UTC (Time.Date (civil 2024 1 2) 10 0 0 0 time.UTC)
          { daily with LastCompleted := Time.Date (civil 2024 1 1) 10 0 0 0 time.UTC,
                       CurrentStreak := 1 }).CurrentStreak = 2
    ∧ (updateTaskStreak time.UTC (Time.Date (civil 2024 1 3) 10 0 0 0 time.UTC)
          { daily with LastCompleted := Time.Date (civil 2024 1 1) 10 0 0 0 time.UTC,
                       CurrentStreak := 1 }).CurrentStreak = 1 := by
  refine ⟨updateTaskStreak_CurrentStreak loc now daily, ?_, by decide, ?_, ?_, ?_⟩
  · intro h0 h1
    exact wrap64_of_range _ ⟨by unfold minInt64 at *; omega, by unfold maxInt64 at *; omega⟩
  · rintro ⟨h0, h1⟩
    simp [updateTaskStreak, Time.IsZero, h0, h1]
  · rw [updateTaskStreak_CurrentStreak]
    dsimp only
    decide
  · rw [updateTaskStreak_CurrentStreak]
    dsimp only
    decide

/-! ## Daily reset sweep -/

theorem resetLoop_eq (loc : Location) (m now : Time) (dailies : List Daily) (acc : Bool) :
    resetLoop loc m now dailies acc
      = (dailies.map (fun d => (resetDaily loc m now d).1),
          acc || dailies.any (fun d => (resetDaily loc m now d).2)) := by
  induction dailies generalizing acc with
  | nil => simp [resetLoop]
  | cons d ds ih => simp [resetLoop, ih, Bool.or_assoc]

theorem resetDailyTasks_eq (loc : Location) (now : Time) (data : AppData) :
    resetDailyTasks loc now data
      = ({ data with Dailies :=
              data.Dailies.map (fun d => (resetDaily loc (getMostRecent3AM loc now) now d).1) },
          data.Dailies.any (fun d => (resetDaily loc (getMostRecent3AM loc now) now d).2)) := by
  simp [resetDailyTasks, resetLoop_eq]

/-- What the loop body does to one task, by the two rules. -/
theorem resetDaily_eq (loc : Location) (now : Time) (daily : Daily) :
    resetDaily loc (getMostRecent3AM loc now) now daily
      = if staleDone loc now daily then
          ({ daily with Status := "INCOMPLETE", LastCompleted := 0, CurrentStreak := 0 }, true)
        else if streakLapsed loc now daily then
          ({ daily with CurrentStreak := 0 }, true)
        else (daily, false) := by
  simp only [resetDaily, staleDone, streakLapsed, Time.IsZero, Time.Before, Bool.and_eq_true,
    Bool.not_eq_true', decide_eq_false_iff_not, beq_iff_eq, decide_eq_true_eq, ne_eq, bne_iff_ne]
  split_ifs <;> simp_all

theorem resetDaily_idem (loc : Location) (now : Time) (d : Daily) :
    resetDaily loc (getMostRecent3AM loc now) now
        (resetDaily loc (getMostRecent3AM loc now) now d).1
      = ((resetDaily loc (getMostRecent3AM loc now) now d).1, false) := by
  rw [resetDaily_eq loc now d]
  split_ifs with h1 h2
  · rw [resetDaily_eq]
    simp [staleDone, streakLapsed]
  · rw [resetDaily_eq]
    simp only [staleDone, streakLapsed] at *
    simp_all
  · rw [resetDaily_eq]
    simp [h1, h2]

theorem resetDaily_changed_iff (loc : Location) (now : Time) (d : Daily) :
    (resetDaily loc (getMostRecent3AM loc now) now d).2 = true
      ↔ (resetDaily loc (getMostRecent3AM loc now) now d).1 ≠ d := by
  rw [resetDaily_eq]
  split_ifs with h1 h2
  · have hs : d.Status = "DONE" := h1.1
    have hne : ({ d with Status := "INCOMPLETE", LastCompleted := 0, CurrentStreak := 0 } : Daily)
        ≠ d := by
      intro h
      have h' := congrArg Daily.Status h
      rw [hs] at h'
      revert h'
      show ¬ ("INCOMPLETE" = "DONE")
      decide
    simp [hne]
  · have hs : d.CurrentStreak > 0 := h2.1
    have hne : ({ d with CurrentStreak := 0 } : Daily) ≠ d := by
      intro h
      have h' := congrArg Daily.CurrentStreak h
      simp only at h'
      omega
    simp [hne]
  · simp

/-- C4: after the sweep a task that was DONE with `LastCompleted` before the most recent
3AM has status INCOMPLETE and a zero `LastCompleted`; every other task keeps its status
and its `LastCompleted`. -/
theorem resetDailyTasks_status_lastCompleted (loc : Location) (now : Time) (data : AppData) :
    List.Forall₂
      (fun before after =>
        (before.Status = "DONE" ∧ before.LastCompleted < getMostRecent3AM loc now →
          after.Status = "INCOMPLETE" ∧ after.LastCompleted = 0)
        ∧ (¬ (before.Status = "DONE" ∧ before.LastCompleted < getMostRecent3AM loc now) →
          after.Status = before.Status ∧ after.LastCompleted = before.LastCompleted))
      data.Dailies (resetDailyTasks loc now data).1.Dailies := by
  rw [resetDailyTasks_eq]
  simp only [List.forall₂_map_right_iff, List.forall₂_same]
  intro d _
  rw [resetDaily_eq]
  unfold staleDone
  split_ifs <;> simp_all

/-- C4, at a concrete store: a task done on 2024-01-01 is stale at 2024-01-02T10:00. -/
theorem resetDailyTasks_status_lastCompleted_witness :
    (doneYesterday.Status = "DONE"
      ∧ doneYesterday.LastCompleted
          < getMostRecent3AM time.UTC (Time.Date (civil 2024 1 2) 10 0 0 0 time.UTC))
    ∧ List.Forall₂
      (fun before after =>
        (before.Status = "DONE"
            ∧ before.LastCompleted
                < getMostRecent3AM time.UTC (Time.Date (civil 2024 1 2) 10 0 0 0 time.UTC) →
          after.Status = "INCOMPLETE" ∧ after.LastCompleted = 0)
        ∧ (¬ (before.Status = "DONE"
            ∧ before.LastCompleted
                < getMostRecent3AM time.UTC (Time.Date (civil 2024 1 2) 10 0 0 0 time.UTC)) →
          after.Status = before.Status ∧ after.LastCompleted = before.LastCompleted))
      doneYesterdayData.Dailies
      (resetDailyTasks time.UTC (Time.Date (civil 2024 1 2) 10 0 0 0 time.UTC) doneYesterdayData).1.Dailies :=
  ⟨by decide,
    resetDailyTasks_status_lastCompleted time.UTC (Time.Date (civil 2024 1 2) 10 0 0 0 time.UTC)
      doneYesterdayData⟩

/-- C5: a task with a positive streak and a non-zero `LastCompleted` whose logical day is
neither that of `now - 24h` nor that of `now` has `CurrentStreak = 0` after the sweep. -/
theorem resetDailyTasks_lapsed_streak_zero (loc : Location) (now : Time) (data : AppData) :
    List.Forall₂
      (fun before after =>
        (before.CurrentStreak > 0 ∧ before.LastCompleted ≠ 0
            ∧ get3AMDay loc before.LastCompleted ≠ get3AMDay loc (now.Add (-24 * time.Hour))
            ∧ get3AMDay loc before.LastCompleted ≠ get3AMDay loc now) →
          after.CurrentStreak = 0)
      data.Dailies (resetDailyTasks loc now data).1.Dailies := by
  rw [resetDailyTasks_eq]
  simp only [List.forall₂_map_right_iff, List.forall₂_same]
  intro d _ h
  rw [resetDaily_eq]
  have h' : streakLapsed loc now d := h
  split_ifs <;> simp_all

/-- C5, at a concrete store: a streak last fed on 2024-01-01 has lapsed by 2024-01-05T10:00. -/
theorem resetDailyTasks_lapsed_streak_zero_witness :
    (staleStreak.CurrentStreak > 0 ∧ staleStreak.LastCompleted ≠ 0
      ∧ get3AMDay time.UTC staleStreak.LastCompleted
          ≠ get3AMDay time.UTC ((Time.Date (civil 2024 1 5) 10 0 0 0 time.UTC).Add (-24 * time.Hour))
      ∧ get3AMDay time.UTC staleStreak.LastCompleted
          ≠ get3AMDay time.UTC (Time.Date (civil 2024 1 5) 10 0 0 0 time.UTC))
    ∧ List.Forall₂
      (fun before after =>
        (before.CurrentStreak > 0 ∧ before.LastCompleted ≠ 0
            ∧ get3AMDay time.UTC before.LastCompleted
                ≠ get3AMDay time.UTC ((Time.Date (civil 2024 1 5) 10 0 0 0 time.UTC).Add (-24 * time.Hour))
            ∧ get3AMDay time.UTC before.LastCompleted
                ≠ get3AMDay time.UTC (Time.Date (civil 2024 1 5) 10 0 0 0 time.UTC)) →
          after.CurrentStreak = 0)
      staleStreakData.Dailies
      (resetDailyTasks time.UTC (Time.Date (civil 2024 1 5) 10 0 0 0 time.UTC) staleStreakData).1.Dailies :=
  ⟨by decide,
    resetDailyTasks_lapsed_streak_zero time.UTC (Time.Date (civil 2024 1 5) 10 0 0 0 time.UTC)
      staleStreakData⟩

/-- C6 as stated fails: at 2024-01-02T10:00 a DONE task last completed on the previous
logical day (2024-01-01T10:00) with streak 3 does not meet the lapse rule, yet the sweep
returns it with `CurrentStreak = 0`. -/
theorem resetDailyTasks_streak_kept_counterexample :
    ¬ streakLapsed time.UTC (Time.Date (civil 2024 1 2) 10 0 0 0 time.UTC) doneYesterday
    ∧ doneYesterday.Status = "DONE"
    ∧ get3AMDay time.UTC doneYesterday.LastCompleted
        = get3AMDay time.UTC ((Time.Date (civil 2024 1 2) 10 0 0 0 time.UTC).Add (-24 * time.Hour))
    ∧ doneYesterday.CurrentStreak = 3
    ∧ (resetDailyTasks time.UTC (Time.Date (civil 2024 1 2) 10 0 0 0 time.UTC) doneYesterdayData).1.Dailies
        = [{ doneYesterday with
              Status := "INCOMPLETE", LastCompleted := 0, CurrentStreak := 0 }] := by
  decide

/-- C6 (amended): the sweep leaves `CurrentStreak` unchanged for every task that meets
neither the lapse rule nor the un-tick rule (DONE and last completed before the most
recent 3AM); a task that meets the un-tick rule is returned INCOMPLETE with a zero
`LastCompleted` and `CurrentStreak = 0`. -/
theorem resetDailyTasks_streak_frame (loc : Location) (now : Time) (data : AppData) :
    List.Forall₂
      (fun before after =>
        (¬ streakLapsed loc now before ∧ ¬ staleDone loc now before →
          after.CurrentStreak = before.CurrentStreak)
        ∧ (staleDone loc now before →
          after.Status = "INCOMPLETE" ∧ after.LastCompleted = 0 ∧ after.CurrentStreak = 0))
      data.Dailies (resetDailyTasks loc now data).1.Dailies := by
  rw [resetDailyTasks_eq]
  simp only [List.forall₂_map_right_iff, List.forall₂_same]
  intro d _
  rw [resetDaily_eq]
  split_ifs <;> simp_all

/-- C6 (amended), at concrete stores: at noon of 2024-01-01 the task done at 10:00 meets
neither rule, and at 2024-01-02T10:00 it meets the un-tick rule. -/
theorem resetDailyTasks_streak_frame_witness :
    (¬ streakLapsed time.UTC (Time.Date (civil 2024 1 1) 12 0 0 0 time.UTC) doneYesterday
      ∧ ¬ staleDone time.UTC (Time.Date (civil 2024 1 1) 12 0 0 0 time.UTC) doneYesterday)
    ∧ staleDone time.UTC (Time.Date (civil 2024 1 2) 10 0 0 0 time.UTC) doneYesterday
    ∧ List.Forall₂
      (fun before after =>
        (¬ streakLapsed time.UTC (Time.Date (civil 2024 1 1) 12 0 0 0 time.UTC) before
            ∧ ¬ staleDone time.UTC (Time.Date (civil 2024 1 1) 12 0 0 0 time.UTC) before →
          after.CurrentStreak = before.CurrentStreak)
        ∧ (staleDone time.UTC (Time.Date (civil 2024 1 1) 12 0 0 0 time.UTC) before →
          after.Status = "INCOMPLETE" ∧ after.LastCompleted = 0 ∧ after.CurrentStreak = 0))
      doneYesterdayData.Dailies
      (resetDailyTasks time.UTC (Time.Date (civil 2024 1 1) 12 0 0 0 time.UTC) doneYesterdayData).1.Dailies
    ∧ List.Forall₂
      (fun before after =>
        (¬ streakLapsed time.UTC (Time.Date (civil 2024 1 2) 10 0 0 0 time.UTC) before
            ∧ ¬ staleDone time.UTC (Time.Date (civil 2024 1 2) 10 0 0 0 time.UTC) before →
          after.CurrentStreak = before.CurrentStreak)
        ∧ (staleDone time.UTC (Time.Date (civil 2024 1 2) 10 0 0 0 time.UTC) before →
          after.Status = "INCOMPLETE" ∧ after.LastCompleted = 0 ∧ after.CurrentStreak = 0))
      doneYesterdayData.Dailies
      (resetDailyTasks time.UTC (Time.Date (civil 2024 1 2) 10 0 0 0 time.UTC) doneYesterdayData).1.Dailies :=
  ⟨by decide, by decide,
    resetDailyTasks_streak_frame time.UTC (Time.Date (civil 2024 1 1) 12 0 0 0 time.UTC) doneYesterdayData,
    resetDailyTasks_streak_frame time.UTC (Time.Date (civil 2024 1 2) 10 0 0 0 time.UTC) doneYesterdayData⟩

/-- C7: a second sweep at the same `now` on the result of the first returns
`resetOccurred = false` and leaves every task unchanged. -/
theorem resetDailyTasks_idempotent (loc : Location) (now : Time) (data : AppData) :
    resetDailyTasks loc now (resetDailyTasks loc now data).1
      = ((resetDailyTasks loc now data).1, false) := by
  simp only [resetDailyTasks_eq, List.map_map, List.any_map]
  have h : ∀ d : Daily,
      resetDaily loc (getMostRecent3AM loc now) now
          (resetDaily loc (getMostRecent3AM loc now) now d).1
        = ((resetDaily loc (getMostRecent3AM loc now) now d).1, false) :=
    resetDaily_idem loc now
  simp [Function.comp_def, h]

/-- C8: the sweep keeps the number of tasks and returns true exactly when some task
differs after it from what it was before (equivalently, when the data differs). -/
theorem resetDailyTasks_reports_change (loc : Location) (now : Time) (data : AppData) :
    (resetDailyTasks loc now data).1.Dailies.length = data.Dailies.length
    ∧ ((resetDailyTasks loc now data).2 = true
        ↔ ∃ (i : Nat) (before after : Daily), data.Dailies[i]? = some before
            ∧ (resetDailyTasks loc now data).1.Dailies[i]? = some after ∧ after ≠ before)
    ∧ ((resetDailyTasks loc now data).2 = true ↔ (resetDailyTasks loc now data).1 ≠ data) := by
  rw [resetDailyTasks_eq]
  refine ⟨by simp, ?_, ?_⟩
  · simp only [List.any_eq_true, resetDaily_changed_iff, List.getElem?_map]
    constructor
    · rintro ⟨d, hd, hne⟩
      obtain ⟨i, hi⟩ := List.mem_iff_getElem?.mp hd
      exact ⟨i, d, _, hi, by simp [hi], hne⟩
    · rintro ⟨i, before, after, hb, ha, hne⟩
      refine ⟨before, List.mem_iff_getElem?.mpr ⟨i, hb⟩, ?_⟩
      rw [hb] at ha
      simp only [Option.map_some', Option.some.injEq] at ha
      rw [ha]
      exact hne
  · simp only [List.any_eq_true, resetDaily_changed_iff]
    constructor
    · rintro ⟨d, hd, hne⟩ h
      have h' := congrArg AppData.Dailies h
      simp only at h'
      exact hne ((map_eq_self_iff _ _).mp h' d hd)
    · intro h
      by_contra hcon
      apply h
      have hmap : data.Dailies.map (fun d => (resetDaily loc (getMostRecent3AM loc now) now d).1)
          = data.Dailies := by
        rw [map_eq_self_iff]
        intro d hd
        by_contra hne
        exact hcon ⟨d, hd, hne⟩
      rw [hmap]

/-! ## Reminder expiry on a tick -/

theorem expiryLoop_eq (now : Time) (reminders : List Reminder) :
    expiryLoop now reminders
      = (reminders.map (fun r =>
            if expiryDue now r then { r with Notified := true, Status := "expired" } else r),
          (reminders.filter (expiryDue now)).map
            (fun r => { title := "Reminder", message := r.Reminder })) := by
  induction reminders with
  | nil => simp [expiryLoop]
  | cons r rs ih =>
    simp only [expiryLoop, ih]
    by_cases h : expiryDue now r <;> simp [h]

theorem expiryDue_iff (now : Time) (r : Reminder) :
    expiryDue now r = true
      ↔ r.Status = "active" ∧ r.Notified = false ∧ r.TargetTime ≠ 0 ∧ r.TargetTime < now := by
  simp only [expiryDue, Time.IsZero, Time.After, Bool.and_eq_true, Bool.not_eq_true',
    decide_eq_false_iff_not, beq_iff_eq, decide_eq_true_eq, ne_eq, gt_iff_lt]
  tauto

theorem updateTick_eq (loc : Location) (now : Time) (data : AppData) :
    updateTick loc now data
      = ({ (resetDailyTasks loc now data).1 with
            Reminders := data.Reminders.map (fun r =>
              if expiryDue now r then { r with Notified := true, Status := "expired" } else r) },
          (data.Reminders.filter (expiryDue now)).map
            (fun r => { title := "Reminder", message := r.Reminder })) := by
  simp [updateTick, expiryLoop_eq, resetDailyTasks_eq]

/-- C1 as stated fails: on a tick at exactly the target time of an active, not yet
notified reminder (`now ≥ TargetTime` holds) nothing is fired and the reminder is left
as it was. -/
theorem updateTick_at_target_counterexample :
    (dueAtEight.Status = "active" ∧ dueAtEight.Notified = false ∧ dueAtEight.TargetTime ≠ 0
      ∧ Time.Date (civil 2024 1 1) 8 0 0 0 time.UTC ≥ dueAtEight.TargetTime)
    ∧ updateTick time.UTC (Time.Date (civil 2024 1 1) 8 0 0 0 time.UTC) dueAtEightData
        = (dueAtEightData, []) := by
  decide

/-- C1 (amended): the tick fires exactly the reminders with status active, `Notified`
false, a non-zero `TargetTime` and `now` strictly after `TargetTime`: each of them gets
`Notified = true` and status expired and one notification, in order; every other reminder
is unchanged and sends none. -/
theorem updateTick_expiry (loc : Location) (now : Time) (data : AppData) :
    List.Forall₂
      (fun before after =>
        (before.Status = "active" ∧ before.Notified = false ∧ before.TargetTime ≠ 0
            ∧ now > before.TargetTime →
          after = { before with Notified := true, Status := "expired" })
        ∧ (¬ (before.Status = "active" ∧ before.Notified = false ∧ before.TargetTime ≠ 0
            ∧ now > before.TargetTime) →
          after = before))
      data.Reminders (updateTick loc now data).1.Reminders
    ∧ (updateTick loc now data).2
        = (data.Reminders.filter (fun r => decide (r.Status = "active" ∧ r.Notified = false
              ∧ r.TargetTime ≠ 0 ∧ now > r.TargetTime))).map
            (fun r => { title := "Reminder", message := r.Reminder }) := by
  rw [updateTick_eq]
  constructor
  · simp only [List.forall₂_map_right_iff, List.forall₂_same, gt_iff_lt, ← expiryDue_iff]
    intro r _
    by_cases h : expiryDue now r <;> simp [h]
  · simp only [gt_iff_lt, ← expiryDue_iff, Bool.decide_eq_true]

/-- C1 (amended), at a concrete store: one second after its target the 08:00 reminder is
due, and the tick expires it with one notification. -/
theorem updateTick_expiry_witness :
    (dueAtEight.Status = "active" ∧ dueAtEight.Notified = false ∧ dueAtEight.TargetTime ≠ 0
      ∧ Time.Date (civil 2024 1 1) 8 0 1 0 time.UTC > dueAtEight.TargetTime)
    ∧ updateTick time.UTC (Time.Date (civil 2024 1 1) 8 0 1 0 time.UTC) dueAtEightData
        = ({ dueAtEightData with
              Reminders := [{ dueAtEight with Notified := true, Status := "expired" }] },
            [{ title := "Reminder", message := "tea" }])
    ∧ (updateTick time.UTC (Time.Date (civil 2024 1 1) 8 0 1 0 time.UTC) dueAtEightData).2
        = (dueAtEightData.Reminders.filter (fun r => decide (r.Status = "active"
              ∧ r.Notified = false ∧ r.TargetTime ≠ 0
              ∧ Time.Date (civil 2024 1 1) 8 0 1 0 time.UTC > r.TargetTime))).map
            (fun r => { title := "Reminder", message := r.Reminder }) :=
  ⟨by decide, by decide,
    (updateTick_expiry time.UTC (Time.Date (civil 2024 1 1) 8 0 1 0 time.UTC) dueAtEightData).2⟩

/-- C2: a second tick at the same `now` on the result of the first sends no notification
and changes nothing (no reminder, and no daily task either). -/
theorem updateTick_twice_fires_nothing (loc : Location) (now : Time) (data : AppData) :
    updateTick loc now (updateTick loc now data).1 = ((updateTick loc now data).1, []) := by
  have hdue : ∀ r : Reminder,
      expiryDue now
        (if expiryDue now r then { r with Notified := true, Status := "expired" } else r)
        = false := by
    intro r
    by_cases h : expiryDue now r
    · rw [if_pos h]
      simp [expiryDue]
    · rw [if_neg h]
      simpa using h
  have hidem : ∀ d : Daily,
      (resetDaily loc (getMostRecent3AM loc now) now
          (resetDaily loc (getMostRecent3AM loc now) now d).1).1
        = (resetDaily loc (getMostRecent3AM loc now) now d).1 := by
    intro d
    rw [resetDaily_idem]
  rw [updateTick_eq loc now data, updateTick_eq]
  simp only [resetDailyTasks_eq, List.map_map, List.filter_map, Function.comp_def, hdue, hidem,
    List.filter_false, List.map_nil]
  congr 2


/-! ## Streak bounds -/

theorem updateTaskStreak_BestStreak (loc : Location) (now : Time) (daily : Daily) :
    (updateTaskStreak loc now daily).BestStreak
      = if daily.LastCompleted ≠ 0
            ∧ get3AMDay loc daily.LastCompleted = get3AMDay loc now then
          daily.BestStreak
        else max daily.BestStreak (updateTaskStreak loc now daily).CurrentStreak := by
  simp only [updateTaskStreak, Time.IsZero, Time.Add, Bool.and_eq_true, Bool.not_eq_true',
    decide_eq_false_iff_not, beq_iff_eq, decide_eq_true_eq, ne_eq]
  split_ifs <;> simp_all <;> omega

theorem applyCompletion_BestStreak_ge (loc : Location) (now : Time) (daily : Daily) :
    daily.BestStreak ≤ (applyCompletion loc now daily).BestStreak := by
  simp only [applyCompletion, updateTaskStreak_BestStreak]
  split_ifs
  · exact le_refl _
  · exact le_max_left _ _

/-- C11: a completion never lowers `BestStreak`; when it is not the same-logical-day
no-op the new `BestStreak` is the maximum of the old one and the new `CurrentStreak`;
and `BestStreak` does not decrease along any sequence of completions. -/
theorem bestStreak_monotone (loc : Location) (now : Time) (daily : Daily) :
    daily.BestStreak ≤ (updateTaskStreak loc now daily).BestStreak
    ∧ daily.BestStreak ≤ (applyCompletion loc now daily).BestStreak
    ∧ (¬ (daily.LastCompleted ≠ 0
          ∧ get3AMDay loc daily.LastCompleted = get3AMDay loc now) →
        (updateTaskStreak loc now daily).BestStreak
          = max daily.BestStreak (updateTaskStreak loc now daily).CurrentStreak)
    ∧ ∀ nows : List Time,
        daily.BestStreak
          ≤ (nows.foldl (fun task t => applyCompletion loc t task) daily).BestStreak := by
  refine ⟨?_, applyCompletion_BestStreak_ge loc now daily, ?_, ?_⟩
  · rw [updateTaskStreak_BestStreak]
    split_ifs
    · exact le_refl _
    · exact le_max_left _ _
  · intro h
    rw [updateTaskStreak_BestStreak, if_neg h]
  · intro nows
    induction nows generalizing daily with
    | nil => exact le_refl _
    | cons t ts ih =>
      exact le_trans (applyCompletion_BestStreak_ge loc t daily) (ih (applyCompletion loc t daily))


theorem updateTaskStreak_inv (loc : Location) (now : Time) (daily : Daily)
    (h0 : 0 ≤ daily.BestStreak) (h : daily.CurrentStreak ≤ daily.BestStreak) :
    0 ≤ (updateTaskStreak loc now daily).BestStreak
      ∧ (updateTaskStreak loc now daily).CurrentStreak
          ≤ (updateTaskStreak loc now daily).BestStreak := by
  rw [updateTaskStreak_BestStreak]
  split_ifs with hc
  · rw [updateTaskStreak_CurrentStreak, if_pos hc]
    exact ⟨h0, h⟩
  · exact ⟨le_trans h0 (le_max_left _ _), le_max_right _ _⟩

theorem streakBounded_applyCompletion (loc : Location) (now : Time) (daily : Daily)
    (h : streakBounded daily) : streakBounded (applyCompletion loc now daily) := by
  simpa [streakBounded, applyCompletion] using updateTaskStreak_inv loc now daily h.1 h.2

theorem streakBounded_revertCompletion (daily : Daily) (h : streakBounded daily) :
    streakBounded (revertCompletion daily) := by
  simpa [streakBounded, revertCompletion] using h

theorem streakBounded_toggleDaily (loc : Location) (now : Time) (daily : Daily)
    (h : streakBounded daily) : streakBounded (toggleDaily loc now daily) := by
  unfold toggleDaily
  split_ifs
  · exact streakBounded_revertCompletion daily h
  · exact streakBounded_applyCompletion loc now daily h

theorem streakBounded_resetDaily (loc : Location) (now : Time) (daily : Daily)
    (h : streakBounded daily) :
    streakBounded (resetDaily loc (getMostRecent3AM loc now) now daily).1 := by
  rw [resetDaily_eq]
  split_ifs
  · exact ⟨h.1, h.1⟩
  · exact ⟨h.1, h.1⟩
  · exact h

theorem mem_modifyAt {α : Type} (f : α → α) (n : Nat) (l : List α) (b : α)
    (hb : b ∈ modifyAt f n l) : b ∈ l ∨ ∃ a ∈ l, b = f a := by
  induction l generalizing n with
  | nil => simp [modifyAt] at hb
  | cons x xs ih =>
    cases n with
    | zero =>
      simp only [modifyAt, List.mem_cons] at hb
      rcases hb with hb | hb
      · exact Or.inr ⟨x, List.mem_cons_self _ _, hb⟩
      · exact Or.inl (List.mem_cons_of_mem _ hb)
    | succ k =>
      simp only [modifyAt, List.mem_cons] at hb
      rcases hb with hb | hb
      · exact Or.inl (hb ▸ List.mem_cons_self _ _)
      · rcases ih k hb with h | ⟨a, ha, hab⟩
        · exact Or.inl (List.mem_cons_of_mem _ h)
        · exact Or.inr ⟨a, List.mem_cons_of_mem _ ha, hab⟩

/-- C12: `CurrentStreak ≤ BestStreak` (with `0 ≤ BestStreak`, the data model's range) holds
for a newly created task, and when it holds for every task of the store it still holds
for every task after a new task is added, after `toggleCompletion` at any cursor
(completing or un-completing a task), and after the daily reset sweep. -/
theorem bestStreak_ge_currentStreak (loc : Location) (now : Time) (data : AppData)
    (h : ∀ d ∈ data.Dailies, 0 ≤ d.BestStreak ∧ d.CurrentStreak ≤ d.BestStreak) :
    (∀ task priority category deadline : String,
        (newDaily data task priority category deadline).CurrentStreak
          ≤ (newDaily data task priority category deadline).BestStreak
        ∧ ∀ d ∈ (saveEditNewDaily data task priority category deadline).Dailies,
            0 ≤ d.BestStreak ∧ d.CurrentStreak ≤ d.BestStreak)
    ∧ (∀ (activeTab : Int) (cursor : Nat),
        ∀ d ∈ (toggleCompletion loc now activeTab cursor data).Dailies,
          0 ≤ d.BestStreak ∧ d.CurrentStreak ≤ d.BestStreak)
    ∧ (∀ d ∈ data.Dailies,
        (applyCompletion loc now d).CurrentStreak ≤ (applyCompletion loc now d).BestStreak
        ∧ (revertCompletion d).CurrentStreak ≤ (revertCompletion d).BestStreak)
    ∧ (∀ d ∈ (resetDailyTasks loc now data).1.Dailies,
        0 ≤ d.BestStreak ∧ d.CurrentStreak ≤ d.BestStreak) := by
  refine ⟨?_, ?_, ?_, ?_⟩
  · intro task priority category deadline
    refine ⟨by simp [newDaily], ?_⟩
    intro d hd
    simp only [saveEditNewDaily, List.mem_append, List.mem_singleton] at hd
    rcases hd with hd | hd
    · exact h d hd
    · subst hd
      simp [newDaily]
  · intro activeTab cursor d hd
    unfold toggleCompletion at hd
    split_ifs at hd
    · exact h d hd
    · exact h d hd
    · rcases mem_modifyAt _ _ _ _ hd with hd | ⟨a, ha, rfl⟩
      · exact h d hd
      · exact streakBounded_toggleDaily loc now a (h a ha)
  · intro d hd
    exact ⟨(streakBounded_applyCompletion loc now d (h d hd)).2,
      (streakBounded_revertCompletion d (h d hd)).2⟩
  · intro d hd
    rw [resetDailyTasks_eq] at hd
    simp only [List.mem_map] at hd
    obtain ⟨a, ha, rfl⟩ := hd
    exact streakBounded_resetDaily loc now a (h a ha)

/-- C12, at the store holding the task done on 2024-01-01 with both streaks 3, swept at
2024-01-02T10:00 UTC. -/
theorem bestStreak_ge_currentStreak_witness :
    (∀ d ∈ doneYesterdayData.Dailies, 0 ≤ d.BestStreak ∧ d.CurrentStreak ≤ d.BestStreak)
    ∧ ∀ d ∈ (resetDailyTasks time.UTC (Time.Date (civil 2024 1 2) 10 0 0 0 time.UTC)
          doneYesterdayData).1.Dailies,
        0 ≤ d.BestStreak ∧ d.CurrentStreak ≤ d.BestStreak :=
  ⟨by decide,
    (bestStreak_ge_currentStreak time.UTC (Time.Date (civil 2024 1 2) 10 0 0 0 time.UTC) doneYesterdayData
      (by decide)).2.2.2⟩

/-- C13: un-completing a DONE task through `toggleCompletion` sets its status to
INCOMPLETE and its `LastCompleted` to zero and changes no other field, so `CurrentStreak`
and `BestStreak` are exactly as they were. -/
theorem toggleDaily_done_keeps_streaks (loc : Location) (now : Time) (daily : Daily)
    (hdone : daily.Status = "DONE") :
    toggleDaily loc now daily = { daily with Status := "INCOMPLETE", LastCompleted := 0 }
    ∧ (toggleDaily loc now daily).Status = "INCOMPLETE"
    ∧ (toggleDaily loc now daily).LastCompleted = 0
    ∧ (toggleDaily loc now daily).CurrentStreak = daily.CurrentStreak
    ∧ (toggleDaily loc now daily).BestStreak = daily.BestStreak := by
  simp [toggleDaily, revertCompletion, hdone]

/-- C13, at the task done on 2024-01-01 with streak 3. -/
theorem toggleDaily_done_keeps_streaks_witness :
    doneYesterday.Status = "DONE"
    ∧ toggleDaily time.UTC (Time.Date (civil 2024 1 1) 12 0 0 0 time.UTC) doneYesterday
        = { doneYesterday with Status := "INCOMPLETE", LastCompleted := 0 } :=
  ⟨by decide,
    (toggleDaily_done_keeps_streaks time.UTC (Time.Date (civil 2024 1 1) 12 0 0 0 time.UTC) doneYesterday
      (by decide)).1⟩



/-! ## 64-bit arithmetic and decimal notation -/

theorem wrap64_mul_left (a b : Int) : wrap64 (wrap64 a * b) = wrap64 (a * b) := by
  have h : wrap64 a = a - 18446744073709551616 * ((a + 9223372036854775808) / 18446744073709551616) := by
    unfold wrap64
    omega
  rw [h]
  unfold wrap64
  have h2 : (a - 18446744073709551616 * ((a + 9223372036854775808) / 18446744073709551616)) * b
      + 9223372036854775808
      = (a * b + 9223372036854775808)
        + 18446744073709551616 * (-(((a + 9223372036854775808) / 18446744073709551616) * b)) := by
    ring
  rw [h2, Int.add_mul_emod_self_left]

theorem decimalLoop_eq (n : Nat) :
    ∀ (fuel : Nat) (acc : List Char), n < fuel →
      decimalLoop fuel n acc = decimalLoop (n + 1) n [] ++ acc := by
  induction n using Nat.strong_induction_on with
  | _ n ih =>
    intro fuel acc hfuel
    obtain ⟨f, rfl⟩ : ∃ f, fuel = f + 1 := ⟨fuel - 1, by omega⟩
    by_cases hn : n < 10
    · simp [decimalLoop, hn]
    · have hlt : n / 10 < n := by omega
      simp only [decimalLoop, hn, if_false]
      rw [ih (n / 10) hlt f _ (by omega), ih (n / 10) hlt n _ hlt]
      simp

theorem natText_small (n : Nat) (h : n < 10) : natText n = [digitChar n] := by
  simp [natText, decimalLoop, h]

theorem natText_large (n : Nat) (h : ¬ n < 10) :
    natText n = natText (n / 10) ++ [digitChar (n % 10)] := by
  have hlt : n / 10 < n := by omega
  have hstep : decimalLoop (n + 1) n [] = decimalLoop n (n / 10) [digitChar (n % 10)] := by
    simp [decimalLoop, h]
  unfold natText
  rw [hstep, decimalLoop_eq (n / 10) n _ hlt]

theorem digitValue_digitChar (d : Nat) (h : d < 10) : digitValue (digitChar d) = some d := by
  interval_cases d <;> decide

theorem readDigits_append (l : List Char) (c : Char) (acc : Nat) :
    readDigits acc (l ++ [c])
      = (readDigits acc l).bind (fun v => (digitValue c).map (fun d => v * 10 + d)) := by
  induction l generalizing acc with
  | nil =>
    simp only [List.nil_append, readDigits, Option.some_bind]
    cases digitValue c <;> simp [readDigits]
  | cons x xs ih =>
    simp only [List.cons_append, readDigits]
    cases digitValue x with
    | none => simp
    | some d => simp [ih]

theorem readDigits_natText (n : Nat) : readDigits 0 (natText n) = some n := by
  induction n using Nat.strong_induction_on with
  | _ n ih =>
    by_cases hn : n < 10
    · simp [natText_small n hn, readDigits, digitValue_digitChar n hn]
    · rw [natText_large n hn, readDigits_append, ih (n / 10) (by omega),
        digitValue_digitChar (n % 10) (by omega)]
      simp only [Option.some_bind, Option.map_some', Option.some.injEq]
      omega

theorem natText_ne_nil (n : Nat) : natText n ≠ [] := by
  by_cases hn : n < 10
  · simp [natText_small n hn]
  · simp [natText_large n hn]

theorem natText_getLast (n : Nat) : (natText n).getLast? = some (digitChar (n % 10)) := by
  by_cases hn : n < 10
  · simp [natText_small n hn, Nat.mod_eq_of_lt hn]
  · simp [natText_large n hn]

theorem natText_head (n : Nat) : ∃ d rest, d < 10 ∧ natText n = digitChar d :: rest := by
  induction n using Nat.strong_induction_on with
  | _ n ih =>
    by_cases hn : n < 10
    · exact ⟨n, [], hn, natText_small n hn⟩
    · obtain ⟨d, rest, hd, h⟩ := ih (n / 10) (by omega)
      exact ⟨d, rest ++ [digitChar (n % 10)], hd, by rw [natText_large n hn, h]; rfl⟩

theorem digitChar_ne_sign (d : Nat) (h : d < 10) : digitChar d ≠ '-' ∧ digitChar d ≠ '+' := by
  interval_cases d <;> decide

theorem atoiDigits_of_read (neg : Bool) (l : List Char) (v : Nat) (hl : l ≠ [])
    (hv : readDigits 0 l = some v)
    (h : minInt64 ≤ (if neg then -(v : Int) else (v : Int))
      ∧ (if neg then -(v : Int) else (v : Int)) ≤ maxInt64) :
    atoiDigits neg l = some (if neg then -(v : Int) else (v : Int)) := by
  cases l with
  | nil => exact absurd rfl hl
  | cons c cs =>
    simp only [atoiDigits, List.isEmpty_cons, hv]
    simpa using h

theorem Atoi_minus (l : List Char) : Atoi ('-' :: l) = atoiDigits true l := rfl

theorem Atoi_unsigned (c : Char) (rest : List Char) (h1 : c ≠ '-') (h2 : c ≠ '+') :
    Atoi (c :: rest) = atoiDigits false (c :: rest) := by
  unfold Atoi
  split
  · rename_i heq
    simp only [List.cons.injEq] at heq
    exact absurd heq.1 h1
  · rename_i heq
    simp only [List.cons.injEq] at heq
    exact absurd heq.1 h2
  · rfl

/-- Reading back the decimal notation of an integer in the range of `int` gives it. -/
theorem Atoi_Itoa (n : Int) (h : minInt64 ≤ n ∧ n ≤ maxInt64) : Atoi (Itoa n) = some n := by
  obtain ⟨d, rest, hd, hrest⟩ := natText_head n.natAbs
  have hread := readDigits_natText n.natAbs
  have hne := digitChar_ne_sign d hd
  by_cases hneg : n < 0
  · have hn : -((n.natAbs : Nat) : Int) = n := by omega
    have hr : minInt64 ≤ (if true = true then -((n.natAbs : Nat) : Int) else (n.natAbs : Int))
        ∧ (if true = true then -((n.natAbs : Nat) : Int) else (n.natAbs : Int)) ≤ maxInt64 := by
      rw [if_pos rfl, hn]
      exact h
    simp only [Itoa, hneg, if_true]
    rw [Atoi_minus, atoiDigits_of_read true _ _ (natText_ne_nil _) hread hr, if_pos rfl, hn]
  · have hn : ((n.natAbs : Nat) : Int) = n := by omega
    have hr : minInt64 ≤ (if false = true then -((n.natAbs : Nat) : Int) else (n.natAbs : Int))
        ∧ (if false = true then -((n.natAbs : Nat) : Int) else (n.natAbs : Int)) ≤ maxInt64 := by
      rw [if_neg (by decide), hn]
      exact h
    simp only [Itoa, hneg, if_false]
    rw [hrest, Atoi_unsigned _ _ hne.1 hne.2, ← hrest,
      atoiDigits_of_read false _ _ (natText_ne_nil _) hread hr, if_neg (by decide), hn]


/-! ## Suffixes -/

theorem HasSuffix_append_self (t u : List Char) : HasSuffix (t ++ u) u = true := by
  simp [HasSuffix]

theorem TrimSuffix_append_self (t u : List Char) : TrimSuffix (t ++ u) u = t := by
  simp [TrimSuffix, HasSuffix_append_self]

/-- A string with the suffix ends in the last character of the suffix. -/
theorem HasSuffix_getLast (s suffix : List Char) (c : Char) (h : HasSuffix s suffix = true)
    (hc : suffix.getLast? = some c) : s.getLast? = some c := by
  simp only [HasSuffix, List.isSuffixOf_iff_suffix] at h
  obtain ⟨p, rfl⟩ := h
  simp [hc]

theorem HasSuffix_eq_false (s suffix : List Char) (c c' : Char) (hs : s.getLast? = some c)
    (hc : suffix.getLast? = some c') (hne : c ≠ c') : HasSuffix s suffix = false := by
  cases h : HasSuffix s suffix with
  | false => rfl
  | true =>
    have := HasSuffix_getLast s suffix c' h hc
    rw [hs] at this
    exact absurd (Option.some.inj this) hne

theorem TrimSuffix_of_getLast (s suffix : List Char) (c c' : Char) (hs : s.getLast? = some c)
    (hc : suffix.getLast? = some c') (hne : c ≠ c') : TrimSuffix s suffix = s := by
  simp [TrimSuffix, HasSuffix_eq_false s suffix c c' hs hc hne]

theorem digitChar_ne_letter (d : Nat) (h : d < 10) :
    digitChar d ≠ 'd' ∧ digitChar d ≠ 'w' ∧ digitChar d ≠ 'm' ∧ digitChar d ≠ 'n'
      ∧ digitChar d ≠ 'h' ∧ digitChar d ≠ 'r' ∧ digitChar d ≠ 's' ∧ digitChar d ≠ 'c' := by
  interval_cases d <;> decide

theorem Itoa_getLast (n : Int) : (Itoa n).getLast? = some (digitChar (n.natAbs % 10)) := by
  unfold Itoa
  split
  · rw [List.getLast?_cons, natText_getLast]
    rfl
  · exact natText_getLast _


theorem HasSuffix_append_ne (t u suffix : List Char) (c c' : Char) (hu : u.getLast? = some c)
    (hc : suffix.getLast? = some c') (hne : c ≠ c') : HasSuffix (t ++ u) suffix = false :=
  HasSuffix_eq_false (t ++ u) suffix c c' (by simp [hu]) hc hne

theorem TrimSuffix_append_ne (t u suffix : List Char) (c c' : Char) (hu : u.getLast? = some c)
    (hc : suffix.getLast? = some c') (hne : c ≠ c') : TrimSuffix (t ++ u) suffix = t ++ u := by
  simp [TrimSuffix, HasSuffix_append_ne t u suffix c c' hu hc hne]

/-! ## Countdown specs -/

theorem parseCountdown_days (now : Time) (t : List Char) (n : Int) (h : Atoi t = some n) :
    parseCountdown now (t ++ ['d']) = (now + wrap64 (n * (24 * time.Hour)), true) := by
  simp only [parseCountdown, HasSuffix_append_self, TrimSuffix_append_self, h, if_true,
    wrap64_mul_left, Time.Add, mul_assoc]

theorem parseCountdown_weeks (now : Time) (t : List Char) (n : Int) (h : Atoi t = some n) :
    parseCountdown now (t ++ ['w']) = (now + wrap64 (n * (7 * 24 * time.Hour)), true) := by
  have h1 := HasSuffix_append_ne t ['w'] ['d'] 'w' 'd' rfl rfl (by decide)
  simp only [parseCountdown, h1, HasSuffix_append_self, TrimSuffix_append_self, h, if_true,
    wrap64_mul_left, Time.Add, mul_assoc]
  simp

theorem parseCountdown_m (now : Time) (t : List Char) (n : Int) (h : Atoi t = some n) :
    parseCountdown now (t ++ ['m']) = (now + wrap64 (n * time.Minute), true) := by
  have h1 := HasSuffix_append_ne t ['m'] ['d'] 'm' 'd' rfl rfl (by decide)
  have h2 := HasSuffix_append_ne t ['m'] ['w'] 'm' 'w' rfl rfl (by decide)
  have h3 := TrimSuffix_append_ne t ['m'] ['m', 'i', 'n'] 'm' 'n' rfl rfl (by decide)
  simp only [parseCountdown, h1, h2, h3, HasSuffix_append_self, TrimSuffix_append_self, h,
    Time.Add, Bool.true_or, if_true]
  simp

theorem parseCountdown_min (now : Time) (t : List Char) (n : Int) (h : Atoi t = some n)
    (ht : HasSuffix t ['m'] = false) :
    parseCountdown now (t ++ ['m', 'i', 'n']) = (now + wrap64 (n * time.Minute), true) := by
  have h1 := HasSuffix_append_ne t ['m', 'i', 'n'] ['d'] 'n' 'd' rfl rfl (by decide)
  have h2 := HasSuffix_append_ne t ['m', 'i', 'n'] ['w'] 'n' 'w' rfl rfl (by decide)
  have h3 : TrimSuffix t ['m'] = t := by simp [TrimSuffix, ht]
  simp only [parseCountdown, h1, h2, h3, HasSuffix_append_self, TrimSuffix_append_self, h,
    Time.Add, Bool.or_true, if_true]
  simp

theorem parseCountdown_h (now : Time) (t : List Char) (n : Int) (h : Atoi t = some n) :
    parseCountdown now (t ++ ['h']) = (now + wrap64 (n * time.Hour), true) := by
  have h1 := HasSuffix_append_ne t ['h'] ['d'] 'h' 'd' rfl rfl (by decide)
  have h2 := HasSuffix_append_ne t ['h'] ['w'] 'h' 'w' rfl rfl (by decide)
  have h3 := HasSuffix_append_ne t ['h'] ['m'] 'h' 'm' rfl rfl (by decide)
  have h4 := HasSuffix_append_ne t ['h'] ['m', 'i', 'n'] 'h' 'n' rfl rfl (by decide)
  have h5 := TrimSuffix_append_ne t ['h'] ['h', 'r'] 'h' 'r' rfl rfl (by decide)
  simp only [parseCountdown, h1, h2, h3, h4, h5, HasSuffix_append_self,
    TrimSuffix_append_self, h, Time.Add, Bool.true_or, if_true]
  simp

theorem parseCountdown_hr (now : Time) (t : List Char) (n : Int) (h : Atoi t = some n)
    (ht : HasSuffix t ['h'] = false) :
    parseCountdown now (t ++ ['h', 'r']) = (now + wrap64 (n * time.Hour), true) := by
  have h1 := HasSuffix_append_ne t ['h', 'r'] ['d'] 'r' 'd' rfl rfl (by decide)
  have h2 := HasSuffix_append_ne t ['h', 'r'] ['w'] 'r' 'w' rfl rfl (by decide)
  have h3 := HasSuffix_append_ne t ['h', 'r'] ['m'] 'r' 'm' rfl rfl (by decide)
  have h4 := HasSuffix_append_ne t ['h', 'r'] ['m', 'i', 'n'] 'r' 'n' rfl rfl (by decide)
  have h5 : TrimSuffix t ['h'] = t := by simp [TrimSuffix, ht]
  simp only [parseCountdown, h1, h2, h3, h4, h5, HasSuffix_append_self,
    TrimSuffix_append_self, h, Time.Add, Bool.or_true, if_true]
  simp

theorem parseCountdown_s (now : Time) (t : List Char) (n : Int) (h : Atoi t = some n) :
    parseCountdown now (t ++ ['s']) = (now + wrap64 (n * time.Second), true) := by
  have h1 := HasSuffix_append_ne t ['s'] ['d'] 's' 'd' rfl rfl (by decide)
  have h2 := HasSuffix_append_ne t ['s'] ['w'] 's' 'w' rfl rfl (by decide)
  have h3 := HasSuffix_append_ne t ['s'] ['m'] 's' 'm' rfl rfl (by decide)
  have h4 := HasSuffix_append_ne t ['s'] ['m', 'i', 'n'] 's' 'n' rfl rfl (by decide)
  have h5 := HasSuffix_append_ne t ['s'] ['h'] 's' 'h' rfl rfl (by decide)
  have h6 := HasSuffix_append_ne t ['s'] ['h', 'r'] 's' 'r' rfl rfl (by decide)
  have h7 := TrimSuffix_append_ne t ['s'] ['s', 'e', 'c'] 's' 'c' rfl rfl (by decide)
  simp only [parseCountdown, h1, h2, h3, h4, h5, h6, h7, HasSuffix_append_self,
    TrimSuffix_append_self, h, Time.Add, Bool.true_or, if_true]
  simp

theorem parseCountdown_sec (now : Time) (t : List Char) (n : Int) (h : Atoi t = some n)
    (ht : HasSuffix t ['s'] = false) :
    parseCountdown now (t ++ ['s', 'e', 'c']) = (now + wrap64 (n * time.Second), true) := by
  have h1 := HasSuffix_append_ne t ['s', 'e', 'c'] ['d'] 'c' 'd' rfl rfl (by decide)
  have h2 := HasSuffix_append_ne t ['s', 'e', 'c'] ['w'] 'c' 'w' rfl rfl (by decide)
  have h3 := HasSuffix_append_ne t ['s', 'e', 'c'] ['m'] 'c' 'm' rfl rfl (by decide)
  have h4 := HasSuffix_append_ne t ['s', 'e', 'c'] ['m', 'i', 'n'] 'c' 'n' rfl rfl (by decide)
  have h5 := HasSuffix_append_ne t ['s', 'e', 'c'] ['h'] 'c' 'h' rfl rfl (by decide)
  have h6 := HasSuffix_append_ne t ['s', 'e', 'c'] ['h', 'r'] 'c' 'r' rfl rfl (by decide)
  have h7 : TrimSuffix t ['s'] = t := by simp [TrimSuffix, ht]
  simp only [parseCountdown, h1, h2, h3, h4, h5, h6, h7, HasSuffix_append_self,
    TrimSuffix_append_self, h, Time.Add, Bool.or_true, if_true]
  simp


theorem Itoa_not_HasSuffix (n : Int) : HasSuffix (Itoa n) ['m'] = false
    ∧ HasSuffix (Itoa n) ['h'] = false ∧ HasSuffix (Itoa n) ['s'] = false := by
  have hl := Itoa_getLast n
  have hne := digitChar_ne_letter (n.natAbs % 10) (Nat.mod_lt _ (by decide))
  exact ⟨HasSuffix_eq_false _ _ _ 'm' hl rfl hne.2.2.1,
    HasSuffix_eq_false _ _ _ 'h' hl rfl hne.2.2.2.2.1,
    HasSuffix_eq_false _ _ _ 's' hl rfl hne.2.2.2.2.2.2.1⟩

/-- C14: for an integer `n` and a unit among d, w, m, min, h, hr, s, sec whose product
fits in a 64-bit duration, `parseCountdown` accepts the decimal text of `n` followed by
the unit and returns `now` plus `n` times the unit's duration (24h, 168h, a minute, an
hour, a second). -/
theorem parseCountdown_count_unit (now : Time) (n : Int) (u : List Char) (unit : Duration)
    (hu : unitDuration u = some unit)
    (hfit : minInt64 ≤ n * unit ∧ n * unit ≤ maxInt64) :
    parseCountdown now (Itoa n ++ u) = (now + n * unit, true) := by
  have hsuf := Itoa_not_HasSuffix n
  unfold unitDuration at hu
  have hrange : ∀ k : Int, 1000000000 ≤ k → unit = k → minInt64 ≤ n ∧ n ≤ maxInt64 := by
    intro k hk hunit
    subst hunit
    unfold minInt64 maxInt64 at *
    constructor <;> nlinarith [hfit.1, hfit.2]
  split_ifs at hu with h1 h2 h3 h4 h5
  · have hunit : unit = 24 * time.Hour := (Option.some.inj hu).symm
    have hat := Atoi_Itoa n (hrange _ (by decide) hunit)
    rw [h1, parseCountdown_days now _ n hat, ← hunit, wrap64_of_range _ hfit]
  · have hunit : unit = 7 * 24 * time.Hour := (Option.some.inj hu).symm
    have hat := Atoi_Itoa n (hrange _ (by decide) hunit)
    rw [h2, parseCountdown_weeks now _ n hat, ← hunit, wrap64_of_range _ hfit]
  · have hunit : unit = time.Minute := (Option.some.inj hu).symm
    have hat := Atoi_Itoa n (hrange _ (by decide) hunit)
    rcases h3 with h3 | h3
    · rw [h3, parseCountdown_m now _ n hat, ← hunit, wrap64_of_range _ hfit]
    · rw [h3, parseCountdown_min now _ n hat hsuf.1, ← hunit, wrap64_of_range _ hfit]
  · have hunit : unit = time.Hour := (Option.some.inj hu).symm
    have hat := Atoi_Itoa n (hrange _ (by decide) hunit)
    rcases h4 with h4 | h4
    · rw [h4, parseCountdown_h now _ n hat, ← hunit, wrap64_of_range _ hfit]
    · rw [h4, parseCountdown_hr now _ n hat hsuf.2.1, ← hunit, wrap64_of_range _ hfit]
  · have hunit : unit = time.Second := (Option.some.inj hu).symm
    have hat := Atoi_Itoa n (hrange _ (by decide) hunit)
    rcases h5 with h5 | h5
    · rw [h5, parseCountdown_s now _ n hat, ← hunit, wrap64_of_range _ hfit]
    · rw [h5, parseCountdown_sec now _ n hat hsuf.2.2, ← hunit, wrap64_of_range _ hfit]

/-- C14, at the specs "5d", "2w" and "30m" read at 2024-01-01T08:00 UTC: the targets are
120 hours, 336 hours and 30 minutes later. -/
theorem parseCountdown_count_unit_witness :
    parseCountdown (Time.Date (civil 2024 1 1) 8 0 0 0 time.UTC) ['5', 'd']
        = (Time.Date (civil 2024 1 1) 8 0 0 0 time.UTC + 120 * time.Hour, true)
    ∧ parseCountdown (Time.Date (civil 2024 1 1) 8 0 0 0 time.UTC) ['2', 'w']
        = (Time.Date (civil 2024 1 1) 8 0 0 0 time.UTC + 336 * time.Hour, true)
    ∧ parseCountdown (Time.Date (civil 2024 1 1) 8 0 0 0 time.UTC) ['3', '0', 'm']
        = (Time.Date (civil 2024 1 1) 8 0 0 0 time.UTC + 30 * time.Minute, true) :=
  ⟨(parseCountdown_count_unit (Time.Date (civil 2024 1 1) 8 0 0 0 time.UTC) 5 ['d']
      (24 * time.Hour) (by decide) (by decide)).trans (by decide),
    (parseCountdown_count_unit (Time.Date (civil 2024 1 1) 8 0 0 0 time.UTC) 2 ['w']
      (7 * 24 * time.Hour) (by decide) (by decide)).trans (by decide),
    parseCountdown_count_unit (Time.Date (civil 2024 1 1) 8 0 0 0 time.UTC) 30 ['m'] time.Minute
      (by decide) (by decide)⟩



theorem HasSuffix_iff (s suffix : List Char) :
    HasSuffix s suffix = true ↔ ∃ p, s = p ++ suffix := by
  simp only [HasSuffix, List.isSuffixOf_iff_suffix]
  constructor
  · rintro ⟨p, hp⟩
    exact ⟨p, hp.symm⟩
  · rintro ⟨p, hp⟩
    exact ⟨p, hp.symm⟩

/-- A branch of `parseCountdown` with one suffix succeeds only on an integer text followed
by the suffix. -/
theorem branch_single (s suffix : List Char) (n : Int)
    (h : (if HasSuffix s suffix then Atoi (TrimSuffix s suffix) else none) = some n) :
    ∃ p, s = p ++ suffix ∧ Atoi p = some n := by
  by_cases hs : HasSuffix s suffix = true
  · obtain ⟨p, rfl⟩ := (HasSuffix_iff s suffix).mp hs
    rw [if_pos hs, TrimSuffix_append_self] at h
    exact ⟨p, rfl, h⟩
  · rw [if_neg hs] at h
    exact absurd h (by simp)

/-- A branch of `parseCountdown` with a short and a long suffix succeeds only on an
integer text followed by the short suffix, the long one, or the short one and the long
one together. -/
theorem branch_double (s : List Char) (a : Char) (long : List Char) (n : Int)
    (h : (if HasSuffix s [a] || HasSuffix s long then
          Atoi (TrimSuffix (TrimSuffix s long) [a]) else none) = some n) :
    ∃ p u, s = p ++ u ∧ (u = [a] ∨ u = long ∨ u = a :: long) ∧ Atoi p = some n := by
  by_cases hc : (HasSuffix s [a] || HasSuffix s long) = true
  · rw [if_pos hc] at h
    by_cases hl : HasSuffix s long = true
    · obtain ⟨q, rfl⟩ := (HasSuffix_iff s long).mp hl
      rw [TrimSuffix_append_self] at h
      by_cases hq : HasSuffix q [a] = true
      · obtain ⟨p, rfl⟩ := (HasSuffix_iff q [a]).mp hq
        rw [TrimSuffix_append_self] at h
        exact ⟨p, a :: long, by simp, Or.inr (Or.inr rfl), h⟩
      · have ht : TrimSuffix q [a] = q := by simp [TrimSuffix, hq]
        rw [ht] at h
        exact ⟨q, long, rfl, Or.inr (Or.inl rfl), h⟩
    · have ht : TrimSuffix s long = s := by simp [TrimSuffix, hl]
      rw [ht] at h
      have ha : HasSuffix s [a] = true := by
        simp only [Bool.or_eq_true] at hc
        rcases hc with hc | hc
        · exact hc
        · exact absurd hc hl
      obtain ⟨p, rfl⟩ := (HasSuffix_iff s [a]).mp ha
      rw [TrimSuffix_append_self] at h
      exact ⟨p, [a], rfl, Or.inl rfl, h⟩
  · rw [if_neg hc] at h
    exact absurd h (by simp)

/-- What `parseCountdown` accepts: an integer text read by `Atoi`, followed by one of the
accepted suffixes; the target is `now` plus the 64-bit product of the two. -/
theorem parseCountdown_ok_form (now : Time) (s : List Char) (t : Time)
    (h : parseCountdown now s = (t, true)) :
    ∃ p u n unit, s = p ++ u ∧ Atoi p = some n ∧ (u, unit) ∈ acceptedSuffixes
      ∧ t = now + wrap64 (n * unit) := by
  unfold parseCountdown at h
  split at h
  · rename_i days hd
    obtain ⟨p, hp, hat⟩ := branch_single _ _ _ hd
    refine ⟨p, ['d'], days, 24 * time.Hour, hp, hat, by simp [acceptedSuffixes], ?_⟩
    simp only [Prod.mk.injEq, and_true, Time.Add, wrap64_mul_left, mul_assoc] at h
    exact h.symm
  · split at h
    · rename_i weeks hw
      obtain ⟨p, hp, hat⟩ := branch_single _ _ _ hw
      refine ⟨p, ['w'], weeks, 7 * 24 * time.Hour, hp, hat, by simp [acceptedSuffixes], ?_⟩
      simp only [Prod.mk.injEq, and_true, Time.Add, wrap64_mul_left, mul_assoc] at h
      rw [← h]
      simp only [mul_assoc]
    · split at h
      · rename_i minutes hm
        obtain ⟨p, u, hp, hu, hat⟩ := branch_double _ _ _ _ hm
        refine ⟨p, u, minutes, time.Minute, hp, hat, ?_, ?_⟩
        · rcases hu with rfl | rfl | rfl <;> simp [acceptedSuffixes]
        · simp only [Prod.mk.injEq, and_true, Time.Add] at h
          exact h.symm
      · split at h
        · rename_i hours hh
          obtain ⟨p, u, hp, hu, hat⟩ := branch_double _ _ _ _ hh
          refine ⟨p, u, hours, time.Hour, hp, hat, ?_, ?_⟩
          · rcases hu with rfl | rfl | rfl <;> simp [acceptedSuffixes]
          · simp only [Prod.mk.injEq, and_true, Time.Add] at h
            exact h.symm
        · split at h
          · rename_i seconds hsec
            obtain ⟨p, u, hp, hu, hat⟩ := branch_double _ _ _ _ hsec
            refine ⟨p, u, seconds, time.Second, hp, hat, ?_, ?_⟩
            · rcases hu with rfl | rfl | rfl <;> simp [acceptedSuffixes]
            · simp only [Prod.mk.injEq, and_true, Time.Add] at h
              exact h.symm
          · simp at h


/-- The target of `parseCountdown` is `now` plus an offset that depends on the spec only. -/
theorem parseCountdown_shift (now : Time) (s : List Char) :
    parseCountdown now s
      = if (parseCountdown 0 s).2 then (now + (parseCountdown 0 s).1, true) else (0, false) := by
  unfold parseCountdown
  split
  · simp [Time.Add]
  · split
    · simp [Time.Add]
    · split
      · simp [Time.Add]
      · split
        · simp [Time.Add]
        · split
          · simp [Time.Add]
          · simp

/-- C15 (the code at the failing inputs): `parseCountdown` accepts "5mmin", "5hhr" and
"5ssec", which are not an integer followed by one unit, as 5 minutes, 5 hours and 5
seconds; it rejects "garbage"; and whatever it accepts is an integer text followed by
one of the eight units or one of these three doubled suffixes. -/
theorem parseCountdown_doubled_suffix (now : Time) :
    parseCountdown now ['5', 'm', 'm', 'i', 'n'] = (now + 5 * time.Minute, true)
    ∧ parseCountdown now ['5', 'h', 'h', 'r'] = (now + 5 * time.Hour, true)
    ∧ parseCountdown now ['5', 's', 's', 'e', 'c'] = (now + 5 * time.Second, true)
    ∧ unitDuration ['m', 'm', 'i', 'n'] = none
    ∧ unitDuration ['h', 'h', 'r'] = none
    ∧ unitDuration ['s', 's', 'e', 'c'] = none
    ∧ parseCountdown now ['g', 'a', 'r', 'b', 'a', 'g', 'e'] = (0, false)
    ∧ ∀ (s : List Char) (t : Time), parseCountdown now s = (t, true) →
        ∃ p u n unit, s = p ++ u ∧ Atoi p = some n ∧ (u, unit) ∈ acceptedSuffixes := by
  have h1 : parseCountdown 0 ['5', 'm', 'm', 'i', 'n'] = (5 * time.Minute, true) := by decide
  have h2 : parseCountdown 0 ['5', 'h', 'h', 'r'] = (5 * time.Hour, true) := by decide
  have h3 : parseCountdown 0 ['5', 's', 's', 'e', 'c'] = (5 * time.Second, true) := by decide
  have h4 : parseCountdown 0 ['g', 'a', 'r', 'b', 'a', 'g', 'e'] = (0, false) := by decide
  refine ⟨?_, ?_, ?_, by decide, by decide, by decide, ?_, ?_⟩
  · rw [parseCountdown_shift, h1]
    rfl
  · rw [parseCountdown_shift, h2]
    rfl
  · rw [parseCountdown_shift, h3]
    rfl
  · rw [parseCountdown_shift, h4]
    rfl
  · intro s t h
    obtain ⟨p, u, n, unit, hs, hat, hu, _⟩ := parseCountdown_ok_form now s t h
    exact ⟨p, u, n, unit, hs, hat, hu⟩



/-! ## Alarm specs -/

/-- For a non-negative duration whose nearest hour fits in 64 bits, `Round(time.Hour)` is
that hour. -/
theorem Round_Hour (d : Duration) (h0 : 0 ≤ d) (hfit : nearestHour d * time.Hour ≤ maxInt64) :
    d.Round time.Hour = nearestHour d * time.Hour := by
  have hmod : Int.tmod d 3600000000000 = d % 3600000000000 :=
    Int.tmod_eq_emod h0 (by decide)
  simp only [Duration.Round, nearestHour, lessThanHalf, wrap64, minInt64, maxInt64,
    time.Hour_val, time.Minute_val] at hfit ⊢
  simp only [hmod, decide_eq_true_eq]
  unfold Duration at *
  split_ifs <;> omega

theorem tdiv_tmod_hours (H : Int) (h0 : 0 ≤ H) :
    Int.tdiv (H * time.Hour) (24 * time.Hour) = H / 24
    ∧ Int.tmod (H * time.Hour) (24 * time.Hour) = H % 24 * time.Hour
    ∧ Int.tdiv (H % 24 * time.Hour) time.Hour = H % 24
    ∧ Int.tdiv (H * time.Hour) time.Hour = H := by
  have hH : (0 : Int) ≤ H * time.Hour := mul_nonneg h0 (by decide)
  have hR : (0 : Int) ≤ H % 24 * time.Hour :=
    mul_nonneg (Int.emod_nonneg _ (by decide)) (by decide)
  rw [Int.tdiv_eq_ediv hH (by decide), Int.tmod_eq_emod hH (by decide),
    Int.tdiv_eq_ediv hR (by decide), Int.tdiv_eq_ediv hH (by decide)]
  simp only [time.Hour_val]
  unfold Duration
  refine ⟨?_, ?_, ?_, ?_⟩ <;> omega

/-- C18 as stated fails: the 9223372036 seconds of the countdown "9223372036s" are above
8 hours and within 64 bits, their nearest whole hour is 2562048, which the claim prints
as "106752 days", but `Round` saturates at the maximum duration and `formatDuration`
prints "106751d 23h". -/
theorem formatDuration_saturated_counterexample :
    9223372036 * time.Second > 8 * time.Hour
    ∧ 9223372036 * time.Second ≤ maxInt64
    ∧ nearestHour (9223372036 * time.Second) = 2562048
    ∧ formatHours 2562048 = "106752 days"
    ∧ Duration.Round (9223372036 * time.Second) time.Hour = maxInt64
    ∧ formatDuration (9223372036 * time.Second) = "106751d 23h" := by
  decide

/-- C18 (amended): for a duration `d` above 8 hours whose nearest whole hour `H` (half
hours rounding up) still fits in a 64-bit duration, `formatDuration` prints `H` as the
specification says: from 24 hours on the whole days `H / 24` and the remainder `H % 24`
as "1 day", "D days", "1 day Rh" or "Dd Rh", below 24 hours "H hours". -/
theorem formatDuration_rounds_then_formats (d : Duration) (h8 : d > 8 * time.Hour)
    (hfit : nearestHour d * time.Hour ≤ maxInt64) :
    formatDuration d = formatHours (nearestHour d) := by
  have hd0 : 0 ≤ d := by
    simp only [time.Hour_val] at h8
    unfold Duration at *
    omega
  have hH : 8 ≤ nearestHour d := by
    simp only [nearestHour, time.Hour_val, time.Minute_val] at h8 ⊢
    unfold Duration at *
    omega
  have hround := Round_Hour d hd0 hfit
  obtain ⟨e1, e2, e3, e4⟩ := tdiv_tmod_hours (nearestHour d) (by omega)
  have hge : nearestHour d * time.Hour ≥ 24 * time.Hour ↔ nearestHour d ≥ 24 := by
    simp only [time.Hour_val]
    unfold Duration
    omega
  have hrem : nearestHour d % 24 * time.Hour = 0 ↔ nearestHour d % 24 = 0 := by
    simp only [time.Hour_val]
    unfold Duration
    omega
  simp only [formatDuration, if_pos h8, hround, e1, e2, e3, e4, hge, hrem, formatHours]
  split_ifs <;> first | rfl | omega


/-- C18 (amended), at 9h, 25h, 48h, 51h and 23h40m. -/
theorem formatDuration_rounds_then_formats_witness :
    formatDuration (9 * time.Hour) = "9 hours"
    ∧ formatDuration (25 * time.Hour) = "1 day 1h"
    ∧ formatDuration (48 * time.Hour) = "2 days"
    ∧ formatDuration (51 * time.Hour) = "2d 3h"
    ∧ formatDuration (23 * time.Hour + 40 * time.Minute) = "1 day" :=
  ⟨(formatDuration_rounds_then_formats (9 * time.Hour) (by decide) (by decide)).trans
      (by decide),
    (formatDuration_rounds_then_formats (25 * time.Hour) (by decide) (by decide)).trans
      (by decide),
    (formatDuration_rounds_then_formats (48 * time.Hour) (by decide) (by decide)).trans
      (by decide),
    (formatDuration_rounds_then_formats (51 * time.Hour) (by decide) (by decide)).trans
      (by decide),
    (formatDuration_rounds_then_formats (23 * time.Hour + 40 * time.Minute) (by decide)
      (by decide)).trans (by decide)⟩



theorem fmtFrac_whole (prec k : Nat) (acc : List Char) :
    fmtFrac prec (k * 10 ^ prec) false acc = (acc, k) := by
  induction prec generalizing k with
  | zero => simp [fmtFrac]
  | succ p ih =>
    have h1 : k * 10 ^ (p + 1) % 10 = 0 := by
      rw [pow_succ, ← mul_assoc]
      exact Nat.mul_mod_left _ _
    have h2 : k * 10 ^ (p + 1) / 10 = k * 10 ^ p := by
      rw [pow_succ, ← mul_assoc]
      exact Nat.mul_div_cancel _ (by decide)
    simp only [fmtFrac, h1, h2]
    simpa using ih k

/-- The `String()` of a whole number of seconds is its clock form. -/
theorem String_seconds (k : Int) :
    String.mk (Duration.String (k * time.Second)) = clockString k := by
  have habs : (k * time.Second).natAbs = k.natAbs * 10 ^ 9 := by
    rw [Int.natAbs_mul]
    rfl
  have hneg : (k * time.Second < 0) ↔ k < 0 := by
    simp only [time.Second_val]
    unfold Duration
    omega
  simp only [Duration.String, clockString, clockBody, habs, hneg, fmtFrac_whole, fmtInt]
  by_cases hk : k.natAbs = 0
  · have hk0 : k = 0 := by omega
    subst hk0
    decide
  · have hbig : ¬ k.natAbs * 10 ^ 9 < 1000000000 := by omega
    simp only [hbig, if_false]
    by_cases hm : k.natAbs / 60 > 0
    · by_cases hh : k.natAbs / 60 / 60 > 0
      · have hh' : k.natAbs / 3600 > 0 := by omega
        have e : k.natAbs / 60 / 60 = k.natAbs / 3600 := by omega
        simp [hm, hh, hh', e]
      · have hh' : ¬ k.natAbs / 3600 > 0 := by omega
        simp [hm, hh, hh']
    · have hh' : ¬ k.natAbs / 3600 > 0 := by omega
      simp [hm, hh']

theorem Truncate_Second (d : Duration) :
    d.Truncate time.Second = Int.tdiv d time.Second * time.Second := by
  have h := Int.tdiv_add_tmod d time.Second
  simp only [Duration.Truncate, time.Second_val] at h ⊢
  rw [if_neg (by decide)]
  unfold Duration at *
  generalize Int.tmod d 1000000000 = r at h ⊢
  generalize Int.tdiv d 1000000000 = q at h ⊢
  omega

/-- The display of a duration of at most 8 hours is the clock form of its whole seconds. -/
theorem formatDuration_short (d : Duration) (h8 : d ≤ 8 * time.Hour) :
    formatDuration d = clockString (Int.tdiv d time.Second) := by
  simp only [formatDuration, if_neg (not_lt.mpr h8), Truncate_Second, String_seconds]


theorem clockValue_digits (ds rest : List Char) (total acc v : Nat)
    (h : readDigits acc ds = some v) :
    clockValue total acc (ds ++ rest) = clockValue total v rest := by
  induction ds generalizing acc with
  | nil =>
    simp only [readDigits, Option.some.injEq] at h
    subst h
    rfl
  | cons c cs ih =>
    simp only [readDigits] at h
    cases hc : digitValue c with
    | none => simp [hc] at h
    | some d =>
      rw [hc] at h
      simp only [List.cons_append, clockValue, hc]
      exact ih _ h

theorem clockValue_natText (n total : Nat) (rest : List Char) :
    clockValue total 0 (natText n ++ rest) = clockValue total n rest :=
  clockValue_digits _ _ _ _ _ (readDigits_natText n)

/-- Reading back the clock form of `u` seconds gives `u`. -/
theorem clockValue_body (u : Nat) : clockValue 0 0 (clockBody u) = u := by
  unfold clockBody
  have hh : digitValue 'h' = none := by decide
  have hm : digitValue 'm' = none := by decide
  have hs : digitValue 's' = none := by decide
  have hmh : ('m' = 'h') = False := by decide
  have hsh : ('s' = 'h') = False := by decide
  have hsm : ('s' = 'm') = False := by decide
  split_ifs with h1 h2
  · simp only [clockValue_natText, clockValue, hh, hm, hs, hmh, hsh, hsm, if_true, if_false]
    omega
  · simp only [clockValue_natText, clockValue, hh, hm, hs, hmh, hsh, hsm, if_true, if_false]
    omega
  · simp only [clockValue_natText, clockValue, hh, hm, hs, hmh, hsh, hsm, if_true, if_false]
    omega

theorem clockBody_head (u : Nat) :
    ∃ d rest, d < 10 ∧ clockBody u = digitChar d :: rest := by
  unfold clockBody
  split_ifs
  · obtain ⟨d, rest, hd, h⟩ := natText_head (u / 3600)
    exact ⟨d, _, hd, by rw [h]; rfl⟩
  · obtain ⟨d, rest, hd, h⟩ := natText_head (u / 60 % 60)
    exact ⟨d, _, hd, by rw [h]; rfl⟩
  · obtain ⟨d, rest, hd, h⟩ := natText_head (u % 60)
    exact ⟨d, _, hd, by rw [h]; rfl⟩

/-- Different whole seconds have different clock forms. -/
theorem clockString_injective (a b : Int) (h : clockString a = clockString b) : a = b := by
  have h := congrArg String.data h
  simp only [clockString] at h
  obtain ⟨da, ra, hda, hea⟩ := clockBody_head a.natAbs
  obtain ⟨db, rb, hdb, heb⟩ := clockBody_head b.natAbs
  have hna := (digitChar_ne_sign da hda).1
  have hnb := (digitChar_ne_sign db hdb).1
  have hva := clockValue_body a.natAbs
  have hvb := clockValue_body b.natAbs
  by_cases ha : a < 0 <;> by_cases hb : b < 0
  · simp only [ha, hb, if_true, List.cons.injEq, true_and] at h
    rw [h] at hva
    have : a.natAbs = b.natAbs := hva.symm.trans hvb
    omega
  · simp only [ha, hb, if_true, if_false] at h
    rw [heb] at h
    simp only [List.cons.injEq] at h
    exact absurd h.1.symm hnb
  · simp only [ha, hb, if_true, if_false] at h
    rw [hea] at h
    simp only [List.cons.injEq] at h
    exact absurd h.1 hna
  · simp only [ha, hb, if_false] at h
    rw [h] at hva
    have : a.natAbs = b.natAbs := hva.symm.trans hvb
    omega

/-- C19: a duration of at most 8 hours (8 hours included) is displayed in the compact
clock form of its whole seconds, truncated toward zero: the sub-second part does not
affect the output, and durations of at most 8 hours with different whole seconds have
different outputs (hence no rounding to hours); 90 seconds give "1m30s". -/
theorem formatDuration_clock_form (d d' : Duration) (h8 : d ≤ 8 * time.Hour)
    (h8' : d' ≤ 8 * time.Hour) :
    formatDuration d = clockString (Int.tdiv d time.Second)
    ∧ (formatDuration d = formatDuration d'
        ↔ Int.tdiv d time.Second = Int.tdiv d' time.Second)
    ∧ formatDuration (8 * time.Hour) = "8h0m0s"
    ∧ formatDuration (90 * time.Second) = "1m30s" := by
  refine ⟨formatDuration_short d h8, ?_, by decide, by decide⟩
  rw [formatDuration_short d h8, formatDuration_short d' h8']
  constructor
  · exact clockString_injective _ _
  · intro h
    rw [h]

/-- C19, at 90 seconds and at 90 seconds and 999999999 nanoseconds. -/
theorem formatDuration_clock_form_witness :
    formatDuration (90 * time.Second) = "1m30s"
    ∧ formatDuration (90 * time.Second + 999999999) = "1m30s"
    ∧ (formatDuration (90 * time.Second) = formatDuration (90 * time.Second + 999999999)
        ↔ Int.tdiv (90 * time.Second) time.Second
            = Int.tdiv (90 * time.Second + 999999999) time.Second) :=
  ⟨by decide, by decide,
    (formatDuration_clock_form (90 * time.Second) (90 * time.Second + 999999999)
      (by decide) (by decide)).2.1⟩



/-! ## Arming a reminder -/

theorem parseSpec_countdown (loc : Location) (now : Time) (spec : String) (target : Time)
    (h : parseCountdown now spec.toList = (target, true)) :
    parseSpec loc now spec = some (target, true) := by
  simp only [parseSpec, h, if_true]

theorem parseSpec_alarm (loc : Location) (now : Time) (spec : String) (t0 target : Time)
    (h0 : parseCountdown now spec.toList = (t0, false))
    (h : parseAlarmTime loc now spec.toList = (target, true)) :
    parseSpec loc now spec = some (target, false) := by
  simp only [parseSpec, h0, h, if_true]
  rfl

/-- The two ways a spec is accepted. -/
theorem parseSpec_cases (loc : Location) (now : Time) (spec : String) (target : Time)
    (isCountdown : Bool) (h : parseSpec loc now spec = some (target, isCountdown)) :
    (isCountdown = true ∧ parseCountdown now spec.toList = (target, true))
    ∨ (isCountdown = false ∧ (parseCountdown now spec.toList).2 = false
        ∧ parseAlarmTime loc now spec.toList = (target, true)) := by
  unfold parseSpec at h
  split_ifs at h with h1 h2
  · simp only [Option.some.injEq, Prod.mk.injEq] at h
    exact Or.inl ⟨h.2.symm, Prod.ext h.1 h1⟩
  · simp only [Option.some.injEq, Prod.mk.injEq] at h
    exact Or.inr ⟨h.2.symm, by simpa using h1, Prod.ext h.1 h2⟩

/-- C20: when `parseCountdown` (tried first) or `parseAlarmTime` accepts a spec at `now`,
creating a reminder with the spec, editing a reminder in any state to the spec, and
starting an inactive reminder that holds the spec all give status active, `Notified`
false, the parser's target as `TargetTime`, and `IsCountdown` true exactly when
`parseCountdown` accepted the spec. -/
theorem arm_on_accepted_spec (loc : Location) (now : Time) (spec : String) (target : Time)
    (isCountdown : Bool) (h : parseSpec loc now spec = some (target, isCountdown)) :
    (isCountdown = (parseCountdown now spec.toList).2)
    ∧ (∀ (data : AppData) (reminderText noteText : String),
        (newReminder loc now data reminderText noteText spec).Status = "active"
        ∧ (newReminder loc now data reminderText noteText spec).Notified = false
        ∧ (newReminder loc now data reminderText noteText spec).TargetTime = target
        ∧ (newReminder loc now data reminderText noteText spec).IsCountdown = isCountdown)
    ∧ (∀ (reminder : Reminder) (reminderText noteText : String),
        (editReminder loc now reminder reminderText noteText spec).Status = "active"
        ∧ (editReminder loc now reminder reminderText noteText spec).Notified = false
        ∧ (editReminder loc now reminder reminderText noteText spec).TargetTime = target
        ∧ (editReminder loc now reminder reminderText noteText spec).IsCountdown = isCountdown)
    ∧ (∀ reminder : Reminder, reminder.Status = "inactive" →
        reminder.AlarmOrCountdown = spec →
        (toggleReminder loc now "start" reminder).Status = "active"
        ∧ (toggleReminder loc now "start" reminder).Notified = false
        ∧ (toggleReminder loc now "start" reminder).TargetTime = target
        ∧ (toggleReminder loc now "start" reminder).IsCountdown = isCountdown) := by
  have hne : ¬ ("inactive" = "paused") := by decide
  rcases parseSpec_cases loc now spec target isCountdown h with ⟨hc, hp⟩ | ⟨hc, hp0, hp⟩
  · subst hc
    refine ⟨by rw [hp], ?_, ?_, ?_⟩
    · intro data reminderText noteText
      simp only [newReminder, hp]
      refine ⟨?_, ?_, ?_, ?_⟩ <;> first | rfl | trivial
    · intro reminder reminderText noteText
      simp only [editReminder, hp]
      refine ⟨?_, ?_, ?_, ?_⟩ <;> first | rfl | trivial
    · intro reminder hs hspec
      subst hspec
      simp only [toggleReminder, reparse, hs, hne, hp, if_true, if_false]
      refine ⟨?_, ?_, ?_, ?_⟩ <;> first | rfl | trivial
  · subst hc
    obtain ⟨t0, ht0⟩ : ∃ t0, parseCountdown now spec.toList = (t0, false) :=
      ⟨(parseCountdown now spec.toList).1, Prod.ext rfl hp0⟩
    refine ⟨by rw [hp0], ?_, ?_, ?_⟩
    · intro data reminderText noteText
      simp only [newReminder, ht0, hp]
      refine ⟨?_, ?_, ?_, ?_⟩ <;> first | rfl | trivial
    · intro reminder reminderText noteText
      simp only [editReminder, ht0, hp]
      refine ⟨?_, ?_, ?_, ?_⟩ <;> first | rfl | trivial
    · intro reminder hs hspec
      subst hspec
      simp only [toggleReminder, reparse, hs, hne, ht0, hp, if_true, if_false]
      refine ⟨?_, ?_, ?_, ?_⟩ <;> first | rfl | trivial

/-- C20, at the spec "30m" read at 2024-01-01T08:00 UTC: a new reminder, the expired
reminder edited to it, and the same reminder started from inactive. -/
theorem arm_on_accepted_spec_witness :
    parseSpec time.UTC (Time.Date (civil 2024 1 1) 8 0 0 0 time.UTC) "30m"
        = some (Time.Date (civil 2024 1 1) 8 30 0 0 time.UTC, true)
    ∧ (newReminder time.UTC (Time.Date (civil 2024 1 1) 8 0 0 0 time.UTC) emptyData "tea" "" "30m").Status
        = "active"
    ∧ (editReminder time.UTC (Time.Date (civil 2024 1 1) 8 0 0 0 time.UTC) expiredTea "tea" "" "30m")
        = { expiredTea with
            Status := "active", Notified := false,
            TargetTime := Time.Date (civil 2024 1 1) 8 30 0 0 time.UTC }
    ∧ toggleReminder time.UTC (Time.Date (civil 2024 1 1) 8 0 0 0 time.UTC) "start"
          { expiredTea with Status := "inactive", Notified := false }
        = { expiredTea with
            Status := "active", Notified := false,
            TargetTime := Time.Date (civil 2024 1 1) 8 30 0 0 time.UTC } :=
  ⟨by decide,
    ((arm_on_accepted_spec time.UTC (Time.Date (civil 2024 1 1) 8 0 0 0 time.UTC) "30m"
      (Time.Date (civil 2024 1 1) 8 30 0 0 time.UTC) true (by decide)).2.1 emptyData "tea" "").1,
    by decide, by decide⟩



/-! ## The status actions of a reminder -/

theorem parseSpec_none (loc : Location) (now : Time) (spec : String)
    (h : parseSpec loc now spec = none) :
    (∃ t0, parseCountdown now spec.toList = (t0, false))
      ∧ ∃ t1, parseAlarmTime loc now spec.toList = (t1, false) := by
  unfold parseSpec at h
  split_ifs at h with h1 h2
  exact ⟨⟨(parseCountdown now spec.toList).1, Prod.ext rfl (by simpa using h1)⟩,
    ⟨(parseAlarmTime loc now spec.toList).1, Prod.ext rfl (by simpa using h2)⟩⟩

/-- The re-parse of start and reset, by the result of parsing the spec. -/
theorem reparse_eq (loc : Location) (now : Time) (reminder : Reminder) :
    reparse loc now reminder
      = match parseSpec loc now reminder.AlarmOrCountdown with
        | some (target, isCountdown) =>
          { reminder with TargetTime := target, IsCountdown := isCountdown }
        | none => reminder := by
  unfold reparse parseSpec
  rcases hc : parseCountdown now reminder.AlarmOrCountdown.toList with ⟨t0, b0⟩
  rcases ha : parseAlarmTime loc now reminder.AlarmOrCountdown.toList with ⟨t1, b1⟩
  cases b0 <;> cases b1 <;> rfl

theorem toggleReminder_start (loc : Location) (now : Time) (reminder : Reminder) :
    toggleReminder loc now "start" reminder
      = if reminder.Status = "paused" then
          if reminder.PausedRemaining > 0 then
            { reminder with
              TargetTime := now + reminder.PausedRemaining, PausedRemaining := 0,
              Status := "active", Notified := false }
          else { reminder with Status := "active", Notified := false }
        else if reminder.Status = "inactive" then
          reparse loc now { reminder with Status := "active", Notified := false }
        else reminder := by
  unfold toggleReminder
  rw [if_pos rfl]
  split_ifs <;> rfl

theorem toggleReminder_pause (loc : Location) (now : Time) (reminder : Reminder) :
    toggleReminder loc now "pause" reminder
      = if reminder.Status = "active" then
          if reminder.TargetTime = 0 then { reminder with Status := "paused" }
          else
            { reminder with
              PausedRemaining := max 0 (min (reminder.TargetTime - now) maxInt64),
              Status := "paused" }
        else reminder := by
  have hne : ¬ ("pause" = "start") := by decide
  have hmin : (0 : Int) > minInt64 := by decide
  have hmax : (0 : Int) < maxInt64 := by decide
  unfold toggleReminder
  rw [if_neg hne, if_pos rfl]
  by_cases hs : reminder.Status = "active"
  · rw [if_pos hs, if_pos hs]
    by_cases ht : reminder.TargetTime = 0
    · rw [if_pos ht]
      simp only [Time.IsZero, ht, decide_True, Bool.not_true, Bool.false_eq_true, if_false]
    · rw [if_neg ht]
      simp only [Time.IsZero, ht, decide_False, Bool.not_false, if_true, time.Until, Time.Sub]
      congr 1
      unfold Duration Time at *
      split_ifs <;> omega
  · rw [if_neg hs, if_neg hs]

theorem toggleReminder_reset (loc : Location) (now : Time) (reminder : Reminder) :
    toggleReminder loc now "reset" reminder
      = reparse loc now
          { reminder with Status := "active", Notified := false, PausedRemaining := 0 } := by
  have h1 : ¬ ("reset" = "start") := by decide
  have h2 : ¬ ("reset" = "pause") := by decide
  unfold toggleReminder
  rw [if_neg h1, if_neg h2, if_pos rfl]

/-- What `toggleReminderStatus` does for an action other than the three of its switch. -/
theorem toggleReminder_other (loc : Location) (now : Time) (action : String) (reminder : Reminder)
    (h1 : action ≠ "start") (h2 : action ≠ "pause") (h3 : action ≠ "reset") :
    toggleReminder loc now action reminder = reminder := by
  unfold toggleReminder
  rw [if_neg h1, if_neg h2, if_neg h3]

/-- C21 as stated fails: neither parser accepts the spec "garbage", yet the reminder created
with it has the empty status, not inactive, and start (from inactive) and reset leave a
reminder that holds it with status active. -/
theorem parse_failure_inactive_counterexample :
    parseSpec time.UTC (Time.Date (civil 2024 1 1) 8 0 0 0 time.UTC) "garbage" = none
    ∧ (newReminder time.UTC (Time.Date (civil 2024 1 1) 8 0 0 0 time.UTC) emptyData "call" "" "garbage").Status
        = ""
    ∧ (newReminder time.UTC (Time.Date (civil 2024 1 1) 8 0 0 0 time.UTC) emptyData "call" "" "garbage").Status
        ≠ "inactive"
    ∧ (toggleReminder time.UTC (Time.Date (civil 2024 1 1) 8 0 0 0 time.UTC) "start"
          { unparsedCall with Status := "inactive" }).Status = "active"
    ∧ (toggleReminder time.UTC (Time.Date (civil 2024 1 1) 8 0 0 0 time.UTC) "reset" unparsedCall).Status
        = "active"
    ∧ (toggleReminder time.UTC (Time.Date (civil 2024 1 1) 8 0 0 0 time.UTC) "reset" unparsedCall).Status
        ≠ "inactive" := by
  decide

/-- C21, amended: for a spec that neither `parseCountdown` nor `parseAlarmTime` accepts at
`now`, the reminder created with it has the empty status (no status is assigned) and no
target time; start on an inactive reminder holding it sets status active and clears
`Notified`, and reset on a reminder in any state holding it sets status active and clears
`Notified` and `PausedRemaining`; both leave `TargetTime` and every other field as they
were. -/
theorem parse_failure_keeps_target (loc : Location) (now : Time) (spec : String)
    (h : parseSpec loc now spec = none) :
    (∀ (data : AppData) (reminderText noteText : String),
        newReminder loc now data reminderText noteText spec
          = { ID := data.Reminders.length + 1, Reminder := reminderText, Note := noteText,
              AlarmOrCountdown := spec, Status := "", CreatedAt := now, TargetTime := 0,
              IsCountdown := false, Notified := false, PausedRemaining := 0 })
    ∧ (∀ reminder : Reminder, reminder.AlarmOrCountdown = spec →
        reminder.Status = "inactive" →
        toggleReminder loc now "start" reminder
          = { reminder with Status := "active", Notified := false })
    ∧ (∀ reminder : Reminder, reminder.AlarmOrCountdown = spec →
        toggleReminder loc now "reset" reminder
          = { reminder with Status := "active", Notified := false, PausedRemaining := 0 }) := by
  have hne : ¬ ("inactive" = "paused") := by decide
  obtain ⟨⟨t0, h0⟩, ⟨t1, h1⟩⟩ := parseSpec_none loc now spec h
  refine ⟨?_, ?_, ?_⟩
  · intro data reminderText noteText
    simp only [newReminder, h0, h1]
  · intro reminder hspec hs
    subst hspec
    rw [toggleReminder_start, hs, if_neg hne, if_pos rfl, reparse_eq]
    simp only [h]
  · intro reminder hspec
    subst hspec
    rw [toggleReminder_reset, reparse_eq]
    simp only [h]

/-- C21, amended, at the spec "garbage" read at 2024-01-01T08:00 UTC: reset of a paused
reminder that holds it. -/
theorem parse_failure_keeps_target_witness :
    parseSpec time.UTC (Time.Date (civil 2024 1 1) 8 0 0 0 time.UTC) "garbage" = none
    ∧ toggleReminder time.UTC (Time.Date (civil 2024 1 1) 8 0 0 0 time.UTC) "reset" unparsedCall
        = { unparsedCall with Status := "active" } :=
  ⟨by decide,
    ((parse_failure_keeps_target time.UTC (Time.Date (civil 2024 1 1) 8 0 0 0 time.UTC) "garbage"
      (by decide)).2.2 unparsedCall rfl).trans (by decide)⟩

/-- C22 as stated fails: a reminder paused with nothing left (`PausedRemaining = 0`) and
target 07:30 is started at 08:00; its target stays 07:30 and is not
`now + PausedRemaining`, which is 08:00. -/
theorem start_paused_target_counterexample :
    pausedAtTarget.Status = "paused"
    ∧ (toggleReminder time.UTC (Time.Date (civil 2024 1 1) 8 0 0 0 time.UTC) "start" pausedAtTarget).TargetTime
        = Time.Date (civil 2024 1 1) 7 30 0 0 time.UTC
    ∧ (toggleReminder time.UTC (Time.Date (civil 2024 1 1) 8 0 0 0 time.UTC) "start" pausedAtTarget).TargetTime
        ≠ (Time.Date (civil 2024 1 1) 8 0 0 0 time.UTC).Add pausedAtTarget.PausedRemaining := by
  decide

/-- C22, amended: start on a paused reminder gives status active and `Notified` false; when
`PausedRemaining` is positive the target becomes `now + PausedRemaining` and
`PausedRemaining` is cleared, and otherwise `TargetTime` and `PausedRemaining` stay as they
were. No other field changes. -/
theorem start_resumes_paused (loc : Location) (now : Time) (reminder : Reminder)
    (h : reminder.Status = "paused") :
    toggleReminder loc now "start" reminder
      = if reminder.PausedRemaining > 0 then
          { reminder with
            TargetTime := now + reminder.PausedRemaining, PausedRemaining := 0,
            Status := "active", Notified := false }
        else { reminder with Status := "active", Notified := false } := by
  rw [toggleReminder_start, if_pos h]

/-- C22, amended, on a reminder paused with ten minutes banked, started at 08:00. -/
theorem start_resumes_paused_witness :
    toggleReminder time.UTC (Time.Date (civil 2024 1 1) 8 0 0 0 time.UTC) "start"
        { pausedAtTarget with PausedRemaining := 10 * time.Minute }
      = { pausedAtTarget with
          TargetTime := Time.Date (civil 2024 1 1) 8 10 0 0 time.UTC, Status := "active" } :=
  (start_resumes_paused time.UTC (Time.Date (civil 2024 1 1) 8 0 0 0 time.UTC)
    { pausedAtTarget with PausedRemaining := 10 * time.Minute } rfl).trans (by decide)

/-- C23 as stated fails: an active reminder with target 2400-01-01 is paused at
2024-01-01T08:00; the time left does not fit a 64-bit duration, and `PausedRemaining`
is the largest duration, not `TargetTime - now`. -/
theorem pause_far_target_counterexample :
    farTarget.Status = "active" ∧ farTarget.TargetTime ≠ 0
    ∧ (toggleReminder time.UTC (Time.Date (civil 2024 1 1) 8 0 0 0 time.UTC) "pause" farTarget).PausedRemaining
        = maxInt64
    ∧ (toggleReminder time.UTC (Time.Date (civil 2024 1 1) 8 0 0 0 time.UTC) "pause" farTarget).PausedRemaining
        ≠ max 0 (farTarget.TargetTime - Time.Date (civil 2024 1 1) 8 0 0 0 time.UTC) := by
  decide

/-- C23, amended: pause on an active reminder with a non-zero target gives status paused and
`PausedRemaining = max 0 (TargetTime - now)` capped at the largest 64-bit duration;
`TargetTime`, `Notified`, the spec and every other field stay as they were. -/
theorem pause_banks_remaining (loc : Location) (now : Time) (reminder : Reminder)
    (hs : reminder.Status = "active") (ht : reminder.TargetTime ≠ 0) :
    toggleReminder loc now "pause" reminder
      = { reminder with
          PausedRemaining := max 0 (min (reminder.TargetTime - now) maxInt64),
          Status := "paused" } := by
  rw [toggleReminder_pause, if_pos hs, if_neg ht]

/-- C23, amended, on the countdown with ten minutes left at 08:00. -/
theorem pause_banks_remaining_witness :
    toggleReminder time.UTC (Time.Date (civil 2024 1 1) 8 0 0 0 time.UTC) "pause" tenMinutesLeft
      = { tenMinutesLeft with PausedRemaining := 10 * time.Minute, Status := "paused" } :=
  (pause_banks_remaining time.UTC (Time.Date (civil 2024 1 1) 8 0 0 0 time.UTC) tenMinutesLeft rfl
    (by decide)).trans (by decide)

/-- C24 as stated fails: the active reminder with target 2400-01-01 is paused and started
again at once at 2024-01-01T08:00; the banked time is capped at the largest 64-bit
duration, so the new target is 2316-04-12T07:47:16.854775807 and not the original one. -/
theorem pause_start_far_target_counterexample :
    farTarget.Status = "active"
    ∧ Time.Date (civil 2024 1 1) 8 0 0 0 time.UTC < farTarget.TargetTime
    ∧ (toggleReminder time.UTC (Time.Date (civil 2024 1 1) 8 0 0 0 time.UTC) "start"
          (toggleReminder time.UTC (Time.Date (civil 2024 1 1) 8 0 0 0 time.UTC) "pause" farTarget)).TargetTime
        = Time.Date (civil 2316 4 12) 7 47 16 854775807 time.UTC
    ∧ (toggleReminder time.UTC (Time.Date (civil 2024 1 1) 8 0 0 0 time.UTC) "start"
          (toggleReminder time.UTC (Time.Date (civil 2024 1 1) 8 0 0 0 time.UTC) "pause" farTarget)).TargetTime
        ≠ Time.Date (civil 2024 1 1) 8 0 0 0 time.UTC
            + (farTarget.TargetTime - Time.Date (civil 2024 1 1) 8 0 0 0 time.UTC) := by
  decide

/-- C24, amended: for an active reminder whose non-zero target is later than `now`, pause at
`now` then start at `now1` gives status active, `Notified` false, no banked time, and the
target `now1 + (TargetTime - now)`, the time left capped at the largest 64-bit duration;
when the time left fits in 64 bits, resuming at once (`now1 = now`) restores the original
target. -/
theorem pause_then_start_keeps_remaining (loc : Location) (now now1 : Time) (reminder : Reminder)
    (hs : reminder.Status = "active") (ht : reminder.TargetTime ≠ 0)
    (hlt : now < reminder.TargetTime) :
    toggleReminder loc now1 "start" (toggleReminder loc now "pause" reminder)
        = { reminder with
            TargetTime := now1 + min (reminder.TargetTime - now) maxInt64,
            PausedRemaining := 0, Status := "active", Notified := false }
    ∧ (reminder.TargetTime - now ≤ maxInt64 →
        (toggleReminder loc now "start" (toggleReminder loc now "pause" reminder)).TargetTime
          = reminder.TargetTime) := by
  have hmax : (0 : Int) < maxInt64 := by decide
  have hpos : max 0 (min (reminder.TargetTime - now) maxInt64)
      = min (reminder.TargetTime - now) maxInt64 := by
    unfold Duration Time at *
    omega
  have hgt : min (reminder.TargetTime - now) maxInt64 > 0 := by
    unfold Duration Time at *
    omega
  have key : ∀ t : Time, toggleReminder loc t "start" (toggleReminder loc now "pause" reminder)
      = { reminder with
          TargetTime := t + min (reminder.TargetTime - now) maxInt64,
          PausedRemaining := 0, Status := "active", Notified := false } := by
    intro t
    rw [toggleReminder_pause, if_pos hs, if_neg ht, hpos, toggleReminder_start, if_pos rfl]
    exact if_pos hgt
  refine ⟨key now1, ?_⟩
  intro hfit
  rw [key now]
  show now + min (reminder.TargetTime - now) maxInt64 = reminder.TargetTime
  unfold Duration Time at *
  omega

/-- C24, amended, on the countdown with ten minutes left at 08:00, paused and resumed at
once: the target is 08:10 again, `now + 10min`. -/
theorem pause_then_start_keeps_remaining_witness :
    toggleReminder time.UTC (Time.Date (civil 2024 1 1) 8 0 0 0 time.UTC) "start"
        (toggleReminder time.UTC (Time.Date (civil 2024 1 1) 8 0 0 0 time.UTC) "pause" tenMinutesLeft)
      = tenMinutesLeft
    ∧ tenMinutesLeft.TargetTime = Time.Date (civil 2024 1 1) 8 0 0 0 time.UTC + 10 * time.Minute :=
  ⟨(pause_then_start_keeps_remaining time.UTC (Time.Date (civil 2024 1 1) 8 0 0 0 time.UTC)
      (Time.Date (civil 2024 1 1) 8 0 0 0 time.UTC) tenMinutesLeft rfl (by decide)
      (by decide)).1.trans (by decide),
    by decide⟩

/-- C25: reset on a reminder in any state gives `Notified` false and `PausedRemaining` zero,
and when `parseCountdown` (tried first) or `parseAlarmTime` accepts the reminder's spec at
`now`, the result has status active, the parser's target as `TargetTime`, and `IsCountdown`
by the parser that accepted; no other field changes. -/
theorem reset_clears_and_rearms (loc : Location) (now : Time) (reminder : Reminder) :
    (toggleReminder loc now "reset" reminder).Notified = false
    ∧ (toggleReminder loc now "reset" reminder).PausedRemaining = 0
    ∧ (∀ (target : Time) (isCountdown : Bool),
        parseSpec loc now reminder.AlarmOrCountdown = some (target, isCountdown) →
        toggleReminder loc now "reset" reminder
          = { reminder with
              Status := "active", Notified := false, PausedRemaining := 0,
              TargetTime := target, IsCountdown := isCountdown }) := by
  rw [toggleReminder_reset, reparse_eq]
  cases hps : parseSpec loc now reminder.AlarmOrCountdown with
  | none => exact ⟨rfl, rfl, fun _ _ h => by cases h⟩
  | some p =>
    obtain ⟨t, c⟩ := p
    refine ⟨rfl, rfl, ?_⟩
    intro target isCountdown h
    cases h
    rfl

/-- C25, on the expired and notified reminder with spec "30m", reset at 08:00: active
again, not notified, with target 08:30. -/
theorem reset_clears_and_rearms_witness :
    toggleReminder time.UTC (Time.Date (civil 2024 1 1) 8 0 0 0 time.UTC) "reset" expiredTea
      = { expiredTea with
          Status := "active", Notified := false,
          TargetTime := Time.Date (civil 2024 1 1) 8 30 0 0 time.UTC } :=
  ((reset_clears_and_rearms time.UTC (Time.Date (civil 2024 1 1) 8 0 0 0 time.UTC) expiredTea).2.2
    (Time.Date (civil 2024 1 1) 8 30 0 0 time.UTC) true (by decide)).trans (by decide)

/-- C26: start on a reminder whose status is active, and pause on a reminder whose status
is not active, return the reminder with every field as it was. -/
theorem invalid_transition_is_noop (loc : Location) (now : Time) (reminder : Reminder) :
    (reminder.Status = "active" → toggleReminder loc now "start" reminder = reminder)
    ∧ (reminder.Status ≠ "active" → toggleReminder loc now "pause" reminder = reminder) := by
  have h1 : ¬ ("active" = "paused") := by decide
  have h2 : ¬ ("active" = "inactive") := by decide
  constructor
  · intro hs
    rw [toggleReminder_start, hs, if_neg h1, if_neg h2]
  · intro hs
    rw [toggleReminder_pause, if_neg hs]

/-- C26, on the active countdown (start) and on the paused reminder (pause). -/
theorem invalid_transition_is_noop_witness :
    toggleReminder time.UTC (Time.Date (civil 2024 1 1) 8 0 0 0 time.UTC) "start" tenMinutesLeft
      = tenMinutesLeft
    ∧ toggleReminder time.UTC (Time.Date (civil 2024 1 1) 8 0 0 0 time.UTC) "pause" pausedAtTarget
      = pausedAtTarget :=
  ⟨(invalid_transition_is_noop time.UTC (Time.Date (civil 2024 1 1) 8 0 0 0 time.UTC) tenMinutesLeft).1 rfl,
    (invalid_transition_is_noop time.UTC (Time.Date (civil 2024 1 1) 8 0 0 0 time.UTC) pausedAtTarget).2
      (by decide)⟩


/-! ## Histories of the reminders -/

theorem getElem?_modifyAt {α : Type} (f : α → α) (n : Nat) (l : List α) (i : Nat) :
    (modifyAt f n l)[i]? = if i = n then (l[i]?).map f else l[i]? := by
  induction l generalizing n i with
  | nil => cases n <;> simp [modifyAt]
  | cons a rest ih =>
    cases n with
    | zero => cases i <;> simp [modifyAt]
    | succ n =>
      cases i with
      | zero => simp [modifyAt]
      | succ i => simp [modifyAt, ih]

/-- What `saveEdit` does to an existing reminder, by the result of parsing the spec. -/
theorem editReminder_eq (loc : Location) (now : Time) (reminder : Reminder)
    (reminderText noteText spec : String) :
    editReminder loc now reminder reminderText noteText spec
      = match parseSpec loc now spec with
        | some (target, isCountdown) =>
          { reminder with
            Reminder := reminderText, Note := noteText, AlarmOrCountdown := spec,
            TargetTime := target, IsCountdown := isCountdown, Notified := false,
            Status := "active" }
        | none =>
          { reminder with
            Reminder := reminderText, Note := noteText, AlarmOrCountdown := spec } := by
  unfold editReminder parseSpec
  rcases hc : parseCountdown now spec.toList with ⟨t0, b0⟩
  rcases ha : parseAlarmTime loc now spec.toList with ⟨t1, b1⟩
  cases b0 <;> cases b1 <;> rfl

theorem newReminder_Notified (loc : Location) (now : Time) (data : AppData)
    (reminderText noteText spec : String) :
    (newReminder loc now data reminderText noteText spec).Notified = false := by
  unfold newReminder
  rcases hc : parseCountdown now spec.toList with ⟨t0, b0⟩
  rcases ha : parseAlarmTime loc now spec.toList with ⟨t1, b1⟩
  cases b0 <;> cases b1 <;> rfl

theorem reparse_Status (loc : Location) (now : Time) (reminder : Reminder) :
    (reparse loc now reminder).Status = reminder.Status
      ∧ (reparse loc now reminder).Notified = reminder.Notified := by
  rw [reparse_eq]
  split <;> exact ⟨rfl, rfl⟩

/-- Every operation on one reminder keeps "notified only when expired", and gives
`Notified = false` whenever it takes the reminder from another status to active. -/
theorem editReminder_notified (loc : Location) (now : Time) (reminder : Reminder)
    (reminderText noteText spec : String) :
    ((reminder.Notified = true → reminder.Status = "expired") →
      (editReminder loc now reminder reminderText noteText spec).Notified = true →
      (editReminder loc now reminder reminderText noteText spec).Status = "expired")
    ∧ (reminder.Status ≠ "active" →
      (editReminder loc now reminder reminderText noteText spec).Status = "active" →
      (editReminder loc now reminder reminderText noteText spec).Notified = false) := by
  rw [editReminder_eq]
  cases parseSpec loc now spec with
  | none => exact ⟨fun h => h, fun h1 h2 => absurd h2 h1⟩
  | some p =>
    obtain ⟨t, c⟩ := p
    exact ⟨fun _ h => (by simp at h), fun _ _ => rfl⟩

theorem toggleReminder_notified (loc : Location) (now : Time) (action : String)
    (reminder : Reminder) :
    ((reminder.Notified = true → reminder.Status = "expired") →
      (toggleReminder loc now action reminder).Notified = true →
      (toggleReminder loc now action reminder).Status = "expired")
    ∧ (reminder.Status ≠ "active" →
      (toggleReminder loc now action reminder).Status = "active" →
      (toggleReminder loc now action reminder).Notified = false) := by
  have hne : ¬ ("active" = "expired") := by decide
  have hne2 : ¬ ("paused" = "active") := by decide
  by_cases h1 : action = "start"
  · subst h1
    rw [toggleReminder_start]
    split_ifs with hp hr hi
    · exact ⟨fun _ h => (by simp at h), fun _ _ => rfl⟩
    · exact ⟨fun _ h => (by simp at h), fun _ _ => rfl⟩
    · obtain ⟨hs, hn⟩ := reparse_Status loc now { reminder with Status := "active", Notified := false }
      rw [hs, hn]
      exact ⟨fun _ h => (by simp at h), fun _ _ => rfl⟩
    · exact ⟨fun h => h, fun h1 h2 => absurd h2 h1⟩
  · by_cases h2 : action = "pause"
    · subst h2
      rw [toggleReminder_pause]
      split_ifs with ha ht
      · refine ⟨fun h hn => ?_, fun h1 _ => absurd ha h1⟩
        have := h hn
        rw [ha] at this
        exact absurd this hne
      · refine ⟨fun h hn => ?_, fun h1 _ => absurd ha h1⟩
        have := h hn
        rw [ha] at this
        exact absurd this hne
      · exact ⟨fun h => h, fun h1 h2 => absurd h2 h1⟩
    · by_cases h3 : action = "reset"
      · subst h3
        rw [toggleReminder_reset]
        obtain ⟨hs, hn⟩ := reparse_Status loc now
          { reminder with Status := "active", Notified := false, PausedRemaining := 0 }
        rw [hs, hn]
        exact ⟨fun _ h => (by simp at h), fun _ _ => rfl⟩
      · rw [toggleReminder_other loc now action reminder h1 h2 h3]
        exact ⟨fun h => h, fun h1 h2 => absurd h2 h1⟩

theorem expire_notified (now : Time) (reminder : Reminder) :
    ((reminder.Notified = true → reminder.Status = "expired") →
      (expire now reminder).Notified = true → (expire now reminder).Status = "expired")
    ∧ (reminder.Status ≠ "active" →
      (expire now reminder).Status = "active" → (expire now reminder).Notified = false) := by
  unfold expire
  split_ifs with h
  · exact ⟨fun _ _ => rfl, fun _ h2 => absurd h2 (show ¬ ("expired" = "active") by decide)⟩
  · exact ⟨fun h => h, fun h1 h2 => absurd h2 h1⟩

theorem updateTick_Reminders (loc : Location) (now : Time) (data : AppData) :
    (updateTick loc now data).1.Reminders = data.Reminders.map (expire now) := by
  rw [updateTick_eq]
  rfl

theorem modifyAt_at {α : Type} (f : α → α) (n : Nat) (l : List α) (i : Nat) (before after : α)
    (hb : l[i]? = some before) (ha : (modifyAt f n l)[i]? = some after) :
    after = before ∨ after = f before := by
  rw [getElem?_modifyAt, hb] at ha
  split_ifs at ha
  · exact Or.inr (Option.some.inj ha).symm
  · exact Or.inl (Option.some.inj ha).symm

/-- A step keeps "notified only when expired" on every reminder of the store. -/
theorem reminderStep_notified (loc : Location) (data data1 : AppData)
    (hstep : ReminderStep loc data data1)
    (h : ∀ r ∈ data.Reminders, r.Notified = true → r.Status = "expired") :
    ∀ r ∈ data1.Reminders, r.Notified = true → r.Status = "expired" := by
  cases hstep with
  | saveEdit now editingRow reminderText noteText spec =>
    intro r hr
    unfold saveEditReminder at hr
    split_ifs at hr with h1 h2
    · rcases List.mem_append.1 hr with hr | hr
      · exact h r hr
      · rw [List.mem_singleton.1 hr, newReminder_Notified]
        intro hn
        exact absurd hn Bool.false_ne_true
    · rcases mem_modifyAt _ _ _ _ hr with hr | ⟨a, ha, rfl⟩
      · exact h r hr
      · exact (editReminder_notified loc now a reminderText noteText spec).1 (h a ha)
    · exact h r hr
  | toggle now activeTab cursor action =>
    intro r hr
    unfold toggleReminderStatus at hr
    split_ifs at hr with h1 h2
    · exact h r hr
    · exact h r hr
    · rcases mem_modifyAt _ _ _ _ hr with hr | ⟨a, ha, rfl⟩
      · exact h r hr
      · exact (toggleReminder_notified loc now action a).1 (h a ha)
  | tick now =>
    intro r hr
    rw [updateTick_Reminders] at hr
    obtain ⟨a, ha, rfl⟩ := List.mem_map.1 hr
    exact (expire_notified now a).1 (h a ha)

/-- A step that takes the reminder at an index from another status to active leaves it
with `Notified = false`. -/
theorem reminderStep_activation (loc : Location) (data data1 : AppData)
    (hstep : ReminderStep loc data data1) (i : Nat) (before after : Reminder)
    (hb : data.Reminders[i]? = some before) (ha : data1.Reminders[i]? = some after)
    (hs : before.Status ≠ "active") (hs1 : after.Status = "active") :
    after.Notified = false := by
  have same : after = before → after.Notified = false := by
    intro he
    rw [he] at hs1
    exact absurd hs1 hs
  cases hstep with
  | saveEdit now editingRow reminderText noteText spec =>
    unfold saveEditReminder at ha
    split_ifs at ha with h1 h2
    · have hi : i < data.Reminders.length := by
        by_contra hcon
        rw [List.getElem?_eq_none (Nat.le_of_not_lt hcon)] at hb
        cases hb
      have ha1 : (data.Reminders ++ [newReminder loc now data reminderText noteText spec])[i]?
          = some after := ha
      rw [List.getElem?_append_left hi, hb] at ha1
      exact same (Option.some.inj ha1).symm
    · rcases modifyAt_at _ _ _ _ _ _ hb ha with he | he
      · exact same he
      · rw [he] at hs1 ⊢
        exact (editReminder_notified loc now before reminderText noteText spec).2 hs hs1
    · rw [hb] at ha
      exact same (Option.some.inj ha).symm
  | toggle now activeTab cursor action =>
    unfold toggleReminderStatus at ha
    split_ifs at ha with h1 h2
    · rw [hb] at ha
      exact same (Option.some.inj ha).symm
    · rw [hb] at ha
      exact same (Option.some.inj ha).symm
    · rcases modifyAt_at _ _ _ _ _ _ hb ha with he | he
      · exact same he
      · rw [he] at hs1 ⊢
        exact (toggleReminder_notified loc now action before).2 hs hs1
  | tick now =>
    rw [updateTick_Reminders, List.getElem?_map, hb] at ha
    have he : after = expire now before := (Option.some.inj ha).symm
    rw [he] at hs1 ⊢
    exact (expire_notified now before).2 hs hs1

/-- C27: in every store reached from newly created reminders by `saveEdit` (a new reminder
or an edit), `toggleReminderStatus` (start, pause, reset) and ticks, a reminder with
`Notified = true` has status expired; and whenever one such step takes the reminder at an
index from a status other than active to active, the reminder has `Notified = false`
after the step. -/
theorem notified_only_when_expired (loc : Location) :
    (∀ data : AppData, ReminderReachable loc data →
      ∀ r ∈ data.Reminders, r.Notified = true → r.Status = "expired")
    ∧ (∀ data data1 : AppData, ReminderStep loc data data1 →
      ∀ (i : Nat) (before after : Reminder),
        data.Reminders[i]? = some before → data1.Reminders[i]? = some after →
        before.Status ≠ "active" → after.Status = "active" → after.Notified = false) := by
  constructor
  · intro data hreach
    induction hreach with
    | init data h =>
      intro r hr hn
      obtain ⟨now, data0, reminderText, noteText, spec, rfl⟩ := h r hr
      rw [newReminder_Notified] at hn
      exact absurd hn Bool.false_ne_true
    | step data data1 _ hstep ih => exact reminderStep_notified loc data data1 hstep ih
  · intro data data1 hstep i before after hb ha hs hs1
    exact reminderStep_activation loc data data1 hstep i before after hb ha hs hs1

/-- C27, on a history: the reminder "tea" is created with spec "30m" at 08:00 and a tick
comes at 08:31; the store is reachable, its reminder is notified, and so expired. -/
theorem notified_only_when_expired_witness :
    ∃ r ∈ (updateTick time.UTC (Time.Date (civil 2024 1 1) 8 31 0 0 time.UTC)
            (saveEditReminder time.UTC (Time.Date (civil 2024 1 1) 8 0 0 0 time.UTC) (-1) "tea" "" "30m"
              emptyData)).1.Reminders,
      r.Notified = true ∧ r.Status = "expired" := by
  refine ⟨{ ID := 1, Reminder := "tea", Note := "", AlarmOrCountdown := "30m",
            Status := "expired", CreatedAt := Time.Date (civil 2024 1 1) 8 0 0 0 time.UTC,
            TargetTime := Time.Date (civil 2024 1 1) 8 30 0 0 time.UTC, IsCountdown := true,
            Notified := true, PausedRemaining := 0 }, by decide, rfl, ?_⟩
  exact (notified_only_when_expired time.UTC).1 _
    (ReminderReachable.step _ _
      (ReminderReachable.step _ _ (ReminderReachable.init emptyData (fun r hr => by cases hr))
        (ReminderStep.saveEdit (Time.Date (civil 2024 1 1) 8 0 0 0 time.UTC) (-1) "tea" "" "30m"
          emptyData))
      (ReminderStep.tick (Time.Date (civil 2024 1 1) 8 31 0 0 time.UTC) _))
    _ (by decide) rfl

/-! ## Histories of the daily tasks -/

/-- Completing a task that was never completed: the first-completion branch. -/
theorem updateTaskStreak_first (loc : Location) (now : Time) (daily : Daily)
    (h : daily.LastCompleted = 0) :
    updateTaskStreak loc now daily
      = if 1 > daily.BestStreak then { daily with CurrentStreak := 1, BestStreak := 1 }
        else { daily with CurrentStreak := 1 } := by
  unfold updateTaskStreak
  simp only [Time.IsZero, h, decide_True, Bool.not_true, Bool.false_and, Bool.false_eq_true,
    if_false, if_true]

theorem streakAtMostOne_toggleDaily (loc : Location) (now : Time) (daily : Daily)
    (h : streakAtMostOne daily) : streakAtMostOne (toggleDaily loc now daily) := by
  obtain ⟨h1, h2, h3⟩ := h
  unfold toggleDaily
  split_ifs with hs
  · exact ⟨fun _ => rfl, h2, h3⟩
  · have hs1 : daily.Status ≠ "DONE" := by simpa using hs
    unfold applyCompletion
    rw [updateTaskStreak_first loc now daily (h1 hs1)]
    split_ifs with hb
    · exact ⟨fun hne => absurd rfl hne, le_refl _, le_refl _⟩
    · exact ⟨fun hne => absurd rfl hne, le_refl _, h3⟩

theorem streakAtMostOne_resetDaily (loc : Location) (now : Time) (daily : Daily)
    (h : streakAtMostOne daily) :
    streakAtMostOne (resetDaily loc (getMostRecent3AM loc now) now daily).1 := by
  obtain ⟨h1, h2, h3⟩ := h
  rw [resetDaily_eq]
  split_ifs
  · exact ⟨fun _ => rfl, (show (0 : Int) ≤ 1 by decide), h3⟩
  · exact ⟨h1, (show (0 : Int) ≤ 1 by decide), h3⟩
  · exact ⟨h1, h2, h3⟩

theorem streakAtMostOne_step (loc : Location) (data data1 : AppData)
    (hstep : DailyStep loc data data1) (h : ∀ d ∈ data.Dailies, streakAtMostOne d) :
    ∀ d ∈ data1.Dailies, streakAtMostOne d := by
  cases hstep with
  | saveEdit editingRow task priority category deadline =>
    intro d hd
    unfold saveEditDaily at hd
    split_ifs at hd with h1 h2
    · rcases List.mem_append.1 hd with hd | hd
      · exact h d hd
      · rw [List.mem_singleton.1 hd]
        exact ⟨fun _ => rfl, (show (0 : Int) ≤ 1 by decide), (show (0 : Int) ≤ 1 by decide)⟩
    · rcases mem_modifyAt _ _ _ _ hd with hd | ⟨a, ha, rfl⟩
      · exact h d hd
      · exact h a ha
    · exact h d hd
  | toggle now activeTab cursor =>
    intro d hd
    unfold toggleCompletion at hd
    split_ifs at hd with h1 h2
    · exact h d hd
    · exact h d hd
    · rcases mem_modifyAt _ _ _ _ hd with hd | ⟨a, ha, rfl⟩
      · exact h d hd
      · exact streakAtMostOne_toggleDaily loc now a (h a ha)
  | sweep now =>
    intro d hd
    rw [resetDailyTasks_eq] at hd
    obtain ⟨a, ha, rfl⟩ := List.mem_map.1 hd
    exact streakAtMostOne_resetDaily loc now a (h a ha)
  | reorder _ dailies hperm =>
    intro d hd
    exact h d (hperm.mem_iff.1 hd)

theorem streakAtMostOne_reachable (loc : Location) (data : AppData) (h : DailyReachable loc data) :
    ∀ d ∈ data.Dailies, streakAtMostOne d := by
  induction h with
  | init data h =>
    intro d hd
    obtain ⟨_, h2, h3, h4⟩ := h d hd
    exact ⟨fun _ => h2, by rw [h3]; decide, by rw [h4]; decide⟩
  | step data data1 _ hstep ih => exact streakAtMostOne_step loc data data1 hstep ih

/-- C28: in every store reached from newly created daily tasks by `saveEdit` on the Dailies
tab, `toggleCompletion` and `resetDailyTasks` at arbitrary times (and by the in-place sort
of the table refresh, in any order of the tasks), every task has
`CurrentStreak ≤ 1` and `BestStreak ≤ 1`, and a task that is not DONE has a zero
`LastCompleted`, so that completing it at any time takes the first-completion branch of
`updateTaskStreak` and gives `CurrentStreak = 1`. -/
theorem streak_never_exceeds_one (loc : Location) (data : AppData) (h : DailyReachable loc data) :
    ∀ d ∈ data.Dailies,
      d.CurrentStreak ≤ 1 ∧ d.BestStreak ≤ 1
      ∧ (d.Status ≠ "DONE" →
          d.LastCompleted = 0
          ∧ ∀ now : Time,
              updateTaskStreak loc now d
                = (if 1 > d.BestStreak then { d with CurrentStreak := 1, BestStreak := 1 }
                   else { d with CurrentStreak := 1 })
              ∧ (toggleDaily loc now d).CurrentStreak = 1
              ∧ (toggleDaily loc now d).BestStreak = 1) := by
  intro d hd
  obtain ⟨h1, h2, h3⟩ := streakAtMostOne_reachable loc data h d hd
  refine ⟨h2, h3, fun hs => ⟨h1 hs, fun now => ?_⟩⟩
  have hf := updateTaskStreak_first loc now d (h1 hs)
  have hs1 : ¬ ((d.Status == "DONE") = true) := by simpa using hs
  refine ⟨hf, ?_, ?_⟩
  · unfold toggleDaily applyCompletion
    rw [if_neg hs1, hf]
    split_ifs <;> rfl
  · unfold toggleDaily applyCompletion
    rw [if_neg hs1, hf]
    split_ifs with hb
    · rfl
    · show d.BestStreak = 1
      omega

/-- C28, on a history of completions on two consecutive days with the sweep between them:
the store is reachable, and the streak of its task is 1, not 2. -/
theorem streak_never_exceeds_one_witness :
    twoDayHistory.Dailies
        = [{ ID := 1, Task := "run", Priority := "HIGH", Category := "health", Deadline := "",
             Status := "DONE", LastCompleted := Time.Date (civil 2024 1 2) 8 0 0 0 time.UTC,
             CurrentStreak := 1, BestStreak := 1 }]
    ∧ ∀ d ∈ twoDayHistory.Dailies, d.CurrentStreak ≤ 1 ∧ d.BestStreak ≤ 1 :=
  ⟨by decide,
    fun d hd =>
      have h := streak_never_exceeds_one time.UTC twoDayHistory
        (DailyReachable.step _ _
          (DailyReachable.step _ _
            (DailyReachable.step _ _
              (DailyReachable.step _ _
                (DailyReachable.init emptyData (fun d hd => by cases hd))
                (DailyStep.saveEdit (-1) "run" "HIGH" "health" "" emptyData))
              (DailyStep.toggle (Time.Date (civil 2024 1 1) 8 0 0 0 time.UTC) 2 0 _))
            (DailyStep.sweep (Time.Date (civil 2024 1 2) 8 0 0 0 time.UTC) _))
          (DailyStep.toggle (Time.Date (civil 2024 1 2) 8 0 0 0 time.UTC) 2 0 _)) d hd
      ⟨h.1, h.2.1⟩⟩

/-! ## The two day boundaries -/

/-- In a zone without clock changes an instant is before the most recent 03:00 exactly when
its 3AM day is an earlier date. -/
theorem lt_getMostRecent3AM_iff (off : Int) (t now : Time) :
    t < getMostRecent3AM (time.FixedZone off) now
      ↔ get3AMDay (time.FixedZone off) t < get3AMDay (time.FixedZone off) now := by
  rw [getMostRecent3AM_eq, get3AMDay_eq, get3AMDay_eq]
  simp only [time.Hour_val, time.Second_val]
  unfold DateLabel Time at *
  constructor <;> intro h <;> omega

/-- C30: in a zone without clock changes, whatever its offset, `t` is before
`getMostRecent3AM now` exactly when `get3AMDay t` is an earlier calendar date than
`get3AMDay now`; and `get3AMDay t = get3AMDay now` exactly when
`getMostRecent3AM now ≤ t < getMostRecent3AM now + 24h`. -/
theorem day_boundaries_agree (off : Int) (t now : Time) :
    (t < getMostRecent3AM (time.FixedZone off) now
      ↔ get3AMDay (time.FixedZone off) t < get3AMDay (time.FixedZone off) now)
    ∧ (get3AMDay (time.FixedZone off) t = get3AMDay (time.FixedZone off) now
        ↔ getMostRecent3AM (time.FixedZone off) now ≤ t
          ∧ t < getMostRecent3AM (time.FixedZone off) now + 24 * time.Hour) := by
  refine ⟨lt_getMostRecent3AM_iff off t now, ?_⟩
  rw [getMostRecent3AM_eq, get3AMDay_eq, get3AMDay_eq]
  simp only [time.Hour_val, time.Second_val]
  unfold DateLabel Time at *
  constructor
  · intro h
    constructor <;> omega
  · rintro ⟨h1, h2⟩
    omega

/-- C30, at 2024-01-02T02:30 UTC seen from 2024-01-02T08:00 UTC: before the boundary
03:00, and on the earlier 3AM day, 2024-01-01. -/
theorem day_boundaries_agree_witness :
    Time.Date (civil 2024 1 2) 2 30 0 0 time.UTC
        < getMostRecent3AM time.UTC (Time.Date (civil 2024 1 2) 8 0 0 0 time.UTC)
    ∧ get3AMDay time.UTC (Time.Date (civil 2024 1 2) 2 30 0 0 time.UTC) = civil 2024 1 1
    ∧ get3AMDay time.UTC (Time.Date (civil 2024 1 2) 8 0 0 0 time.UTC) = civil 2024 1 2 :=
  ⟨(day_boundaries_agree 0 (Time.Date (civil 2024 1 2) 2 30 0 0 time.UTC)
      (Time.Date (civil 2024 1 2) 8 0 0 0 time.UTC)).1.2 (by decide),
    by decide, by decide⟩

end Lif
